import Mathlib

/-! # Signaling core of the embedded LiveKit client

A shallow embedding of the signaling code of `src/lk_sub.cpp`, `src/lk_pub.cpp`
and `src/livekit.cpp` and of the audio capture of `src/media.cpp`, and the
properties of them that the specification states.

Conventions of the embedding

* A C string is the list of its characters before the terminating NUL (`Str`);
  a `char *` that may be `NULL` is an `Option Str`; a pointer into a string is
  the offset it points at.
* Code that aborts the process (`assert`, `panic`) or leaves defined behaviour
  (a `NULL` dereference, a write past a buffer) ends in a `Fatal` value.
* The peer connection engine, the websocket transport, the JSON parser, the
  audio hardware and the audio encoder are external: calls into them are
  recorded as events, in call order, and what they return is an input of the
  embedded function.
* Values of `size_t` are natural numbers taken modulo `2 ^ 32`.
* Each session function runs under the session mutex, taken with
  `portMAX_DELAY`, so it is embedded as one atomic step.
* The sessions are taken after `lk_sub_create` and `lk_pub_create`: the peer
  connection, the mutex and the two callbacks exist. The callbacks of the
  engine are steps of their own; the engine state read by a step is an input
  of that step.
-/

namespace EmbeddedSdk

/-! ## C strings -/

/-- The characters of a C string, without the terminating NUL. -/
abbrev Str := List Char

/-- The literal `"m=audio"` searched by `create_answer`. -/
def m_audio : Str := "m=audio".toList

/-- The literal `"m=application"` searched by `create_answer`. -/
def m_application : Str := "m=application".toList

/-- The C function `strlen`. -/
def strlen (s : Str) : Nat := s.length

/-- The C function `strstr`: the offset of the first occurrence of `needle` in
`haystack`, or `none` for a `NULL` result. -/
def strstr (haystack needle : Str) : Option Nat :=
  if needle.isPrefixOf haystack then some 0
  else
    match haystack with
    | [] => none
    | _ :: rest => (strstr rest needle).map (· + 1)

/-- The C function `strchr`: the offset of the first occurrence of the
character `c` in `s`, or `none` for a `NULL` result. -/
def strchr (s : Str) (c : Char) : Option Nat :=
  match s with
  | [] => none
  | x :: rest => if x = c then some 0 else (strchr rest c).map (· + 1)

/-- The characters that `strncpy(dst, src, n)` writes at `dst`, for
`n ≤ strlen(src)`, the only way `create_answer` calls it: the first `n`
characters of `src`, and no NUL. -/
def strncpy (src : Str) (n : Nat) : Str := src.take n

/-! ## Answer synthesis (`src/lk_sub.cpp`, `create_answer`) -/

/-- The function `create_answer` of `src/lk_sub.cpp`, on the offer buffer and
the cached local description. The pointers `local_data_m_section` and
`local_audio_m_section` are offsets into the local description. The result is
`none` where the C code leaves defined behaviour: one of the two `strstr`
calls on the local description returns `NULL`, or the data section comes
before the audio section, so that `audio_len` wraps around and the copies
run past the allocated buffer. Otherwise it is the string left in `answer`:
the characters copied, in order, closed by the NUL written at `answer_ptr`.
The allocation is taken to succeed. -/
def create_answer (g_offer_buffer g_local_description : Str) : Option Str :=
  let include_audio := (strstr g_offer_buffer m_audio).isSome
  match strstr g_local_description m_application,
        strstr g_local_description m_audio with
  | some local_data_m_section, some local_audio_m_section =>
    if local_audio_m_section ≤ local_data_m_section then
      let session_len := local_audio_m_section
      let audio_len := local_data_m_section - local_audio_m_section
      let data_len := strlen (g_local_description.drop local_data_m_section)
      -- First we'll copy the session-level attributes.
      let answer := strncpy g_local_description session_len
      -- Now we'll copy the m= sections in the desired order.
      let answer :=
        answer ++ strncpy (g_local_description.drop local_data_m_section) data_len
      let answer :=
        if include_audio then
          answer ++ strncpy (g_local_description.drop local_audio_m_section) audio_len
        else answer
      some answer
    else none
  | _, _ => none

/-! ## Vocabulary of the specification for session descriptions -/

/-- The string `needle` occurs in `hay` at offset `k` and at no smaller
offset. -/
def FirstAt (needle hay : Str) (k : Nat) : Prop :=
  needle <+: hay.drop k ∧ ∀ j, j < k → ¬ needle <+: hay.drop j

instance (needle hay : Str) (k : Nat) : Decidable (FirstAt needle hay k) := by
  unfold FirstAt
  infer_instance

/-- The kind of a media section of a session description. -/
inductive MediaKind
  | audio
  | application
  | other
  deriving DecidableEq, Repr

/-- The literal `"m="` that opens every media section. -/
def m_line : Str := "m=".toList

/-- The media section that starts at the head of `s`, if one does: its kind is
read off the media name after `m=`. -/
def mediaKindAt (s : Str) : Option MediaKind :=
  if m_audio.isPrefixOf s then some MediaKind.audio
  else if m_application.isPrefixOf s then some MediaKind.application
  else if m_line.isPrefixOf s then some MediaKind.other
  else none

/-- The kinds of the media sections of a session description, in the order
in which they occur. A media section starts at every occurrence of `m=`, the
way `create_answer` finds sections with `strstr`. -/
def mediaSections : Str → List MediaKind
  | [] => []
  | c :: rest =>
    match mediaKindAt (c :: rest) with
    | some k => k :: mediaSections rest
    | none => mediaSections rest

/-! ## The peer connection engine, as the sessions see it -/

/-- Modelled from the spec: the connection states of the peer connection
engine, whose header `peer.h` is not among the sources. The specification
lists New, Checking, Connected and Disconnected. The code names two states:
`PEER_CONNECTION_COMPLETED`, which is the Connected of the specification,
and `PEER_CONNECTION_DISCONNECTED`. The other constructors are the
remaining states of the engine, New and Checking among them; the code
treats all of them alike. -/
inductive PeerConnectionState
  | PEER_CONNECTION_CLOSED
  | PEER_CONNECTION_NEW
  | PEER_CONNECTION_CHECKING
  | PEER_CONNECTION_CONNECTED
  | PEER_CONNECTION_COMPLETED
  | PEER_CONNECTION_FAILED
  | PEER_CONNECTION_DISCONNECTED
  deriving DecidableEq, Repr

open PeerConnectionState

/-- What a session does to the outside, in the order it does it: calls into
its peer connection `g_pc`, and calls of the two callbacks it got from
`lk_sub_create` or `lk_pub_create`. -/
inductive Event
  | peer_connection_add_ice_candidate (candidate : Str)
  | peer_connection_set_remote_description (sdp : Str)
  | peer_connection_create_offer
  | g_signal_cb (type message : Str)
  | g_state_cb (state : PeerConnectionState)
  | peer_connection_send_audio (bytes : Nat)
  | peer_connection_loop
  deriving DecidableEq, Repr

/-- The ways a function ends without returning. -/
inductive Fatal
  | assert_failed
  | panic (msg : String)
  | undefined_behaviour
  deriving DecidableEq, Repr

/-- One run of a session function: the events it produced, and the session
state it returned with, or the fatal condition that ended it. -/
structure Step (σ : Type) where
  events : List Event
  result : Except Fatal σ

/-! ## Subscriber session (`src/lk_sub.cpp`) -/

/-- The string `"answer"`, the constant `SDP_TYPE_ANSWER`. -/
def SDP_TYPE_ANSWER : Str := "answer".toList

/-- The static variables of `src/lk_sub.cpp` that signaling reads and writes,
each `NULL` or an owned string. -/
structure SubState where
  g_offer_buffer : Option Str
  g_ice_candidate_buffer : Option Str
  g_local_description : Option Str
  deriving DecidableEq, Repr

namespace lk_sub

/-- The last part of `process_signaling_values`, from the comment
"Apply the offer and generate the answer" on: the offer goes to the engine,
`create_answer` runs on the offer and the cached local description, the
answer goes to `g_signal_cb`, and the offer buffer is cleared.
`create_answer` leaves defined behaviour when no local description is
cached or when it does not have the two sections. -/
def apply_offer (s : SubState) (offer : Str) (before : List Event) : Step SubState :=
  match s.g_local_description with
  | none =>
    ⟨before ++ [Event.peer_connection_set_remote_description offer],
      .error Fatal.undefined_behaviour⟩
  | some local_description =>
    match create_answer offer local_description with
    | none =>
      ⟨before ++ [Event.peer_connection_set_remote_description offer],
        .error Fatal.undefined_behaviour⟩
    | some answer =>
      ⟨before ++ [Event.peer_connection_set_remote_description offer,
          Event.g_signal_cb SDP_TYPE_ANSWER answer],
        .ok { s with g_offer_buffer := none }⟩

/-- The function `process_signaling_values` of `src/lk_sub.cpp`; `state` is
what `peer_connection_get_state(g_pc)` returns. -/
def process_signaling_values (state : PeerConnectionState) (s : SubState) :
    Step SubState :=
  match s.g_offer_buffer with
  | none => ⟨[], .ok s⟩
  | some offer =>
    if state ≠ PEER_CONNECTION_COMPLETED then
      match s.g_ice_candidate_buffer with
      | none => ⟨[], .ok s⟩
      | some candidate =>
        apply_offer { s with g_ice_candidate_buffer := none } offer
          [Event.peer_connection_add_ice_candidate candidate]
    else
      apply_offer s offer []

/-- The callback `on_ice_candidate` of `src/lk_sub.cpp`: the engine hands over
its local description, which is cached. -/
def on_ice_candidate (s : SubState) (description : Str) : Step SubState :=
  ⟨[], .ok { s with g_local_description := some description }⟩

/-- The callback `on_ice_state_change` of `src/lk_sub.cpp`. -/
def on_ice_state_change (s : SubState) (state : PeerConnectionState) : Step SubState :=
  ⟨[Event.g_state_cb state], .ok s⟩

end lk_sub

/-- The function `lk_sub_set_remote_description` of `src/lk_sub.cpp`. -/
def lk_sub_set_remote_description (state : PeerConnectionState) (s : SubState)
    (offer : Str) : Step SubState :=
  lk_sub.process_signaling_values state { s with g_offer_buffer := some offer }

/-- The function `lk_sub_add_ice_candidate` of `src/lk_sub.cpp`. -/
def lk_sub_add_ice_candidate (state : PeerConnectionState) (s : SubState)
    (description : Str) : Step SubState :=
  match s.g_ice_candidate_buffer with
  | some _ => ⟨[], .error Fatal.assert_failed⟩
  | none =>
    lk_sub.process_signaling_values state
      { s with g_ice_candidate_buffer := some description }

/-! ## Publisher session (`src/lk_pub.cpp`) -/

/-- The string `"offer"`, the constant `SDP_TYPE_OFFER`. -/
def SDP_TYPE_OFFER : Str := "offer".toList

/-- The static variables of `src/lk_pub.cpp` that signaling reads and writes,
each `NULL` or an owned string. -/
structure PubState where
  g_local_description : Option Str
  g_answer_buffer : Option Str
  g_ice_candidate_buffer : Option Str
  deriving DecidableEq, Repr

namespace lk_pub

/-- The last part of `process_signaling_values`, from the comment
"Apply the offer and dispose of it" on. -/
def apply_answer (s : PubState) (answer : Str) (before : List Event) : Step PubState :=
  ⟨before ++ [Event.peer_connection_set_remote_description answer],
    .ok { s with g_answer_buffer := none }⟩

/-- The function `process_signaling_values` of `src/lk_pub.cpp`; `state` is
what `peer_connection_get_state(g_pc)` returns. -/
def process_signaling_values (state : PeerConnectionState) (s : PubState) :
    Step PubState :=
  match s.g_answer_buffer with
  | none => ⟨[], .ok s⟩
  | some answer =>
    if state ≠ PEER_CONNECTION_COMPLETED then
      match s.g_ice_candidate_buffer with
      | none => ⟨[], .ok s⟩
      | some candidate =>
        apply_answer { s with g_ice_candidate_buffer := none } answer
          [Event.peer_connection_add_ice_candidate candidate]
    else
      apply_answer s answer []

/-- The callback `on_ice_candidate` of `src/lk_pub.cpp`: the local description
is cached and sent out as the offer. -/
def on_ice_candidate (s : PubState) (description : Str) : Step PubState :=
  ⟨[Event.g_signal_cb SDP_TYPE_OFFER description],
    .ok { s with g_local_description := some description }⟩

/-- The callback `on_ice_state_change` of `src/lk_pub.cpp`. -/
def on_ice_state_change (s : PubState) (state : PeerConnectionState) : Step PubState :=
  ⟨[Event.g_state_cb state], .ok s⟩

end lk_pub

/-- The function `lk_pub_reoffer` of `src/lk_pub.cpp`. -/
def lk_pub_reoffer (s : PubState) : Step PubState :=
  ⟨[Event.peer_connection_create_offer], .ok s⟩

/-- The function `lk_pub_set_remote_description` of `src/lk_pub.cpp`. -/
def lk_pub_set_remote_description (state : PeerConnectionState) (s : PubState)
    (sdp : Str) : Step PubState :=
  lk_pub.process_signaling_values state { s with g_answer_buffer := some sdp }

/-- The function `lk_pub_add_ice_candidate` of `src/lk_pub.cpp`. -/
def lk_pub_add_ice_candidate (state : PeerConnectionState) (s : PubState)
    (description : Str) : Step PubState :=
  match s.g_ice_candidate_buffer with
  | some _ => ⟨[], .error Fatal.assert_failed⟩
  | none =>
    lk_pub.process_signaling_values state
      { s with g_ice_candidate_buffer := some description }

/-! ## Signal dispatcher (`src/livekit.cpp`) -/

/-- Modelled from the spec: the target of a trickle envelope, declared in the
generated header `livekit_rtc.pb-c.h`, which is not among the sources. -/
inductive Livekit__SignalTarget
  | LIVEKIT__SIGNAL_TARGET__PUBLISHER
  | LIVEKIT__SIGNAL_TARGET__SUBSCRIBER
  deriving DecidableEq, Repr

/-- Modelled from the spec: the source kind of a track, declared in the
generated header `livekit_rtc.pb-c.h`, which is not among the sources. -/
inductive Livekit__TrackSource
  | LIVEKIT__TRACK_SOURCE__UNKNOWN
  | LIVEKIT__TRACK_SOURCE__CAMERA
  | LIVEKIT__TRACK_SOURCE__MICROPHONE
  | LIVEKIT__TRACK_SOURCE__SCREEN_SHARE
  | LIVEKIT__TRACK_SOURCE__SCREEN_SHARE_AUDIO
  deriving DecidableEq, Repr

/-- Modelled from the spec: the request envelopes that `src/livekit.cpp`
fills in, with the fields it sets; the type is declared in the generated
header `livekit_rtc.pb-c.h`, which is not among the sources. -/
inductive Livekit__SignalRequest
  | LIVEKIT__SIGNAL_REQUEST__MESSAGE_OFFER (type sdp : Str)
  | LIVEKIT__SIGNAL_REQUEST__MESSAGE_ANSWER (type sdp : Str)
  | LIVEKIT__SIGNAL_REQUEST__MESSAGE_ADD_TRACK (cid name : Str)
      (source : Livekit__TrackSource)
  deriving DecidableEq, Repr

/-- Modelled from the spec: the response envelopes, by `message_case`, with
the fields that `handle_livekit_response` reads; the type is declared in the
generated header `livekit_rtc.pb-c.h`, which is not among the sources.
`OTHER` stands for every message case that the `switch` does not name. -/
inductive Livekit__SignalResponse
  | LIVEKIT__SIGNAL_RESPONSE__MESSAGE__NOT_SET
  | LIVEKIT__SIGNAL_RESPONSE__MESSAGE_JOIN (room_sid : Str)
  | LIVEKIT__SIGNAL_RESPONSE__MESSAGE_ANSWER (sdp : Str)
  | LIVEKIT__SIGNAL_RESPONSE__MESSAGE_OFFER (sdp : Str)
  | LIVEKIT__SIGNAL_RESPONSE__MESSAGE_TRICKLE (candidateinit : Str)
      (target : Livekit__SignalTarget)
  | LIVEKIT__SIGNAL_RESPONSE__MESSAGE_UPDATE
  | LIVEKIT__SIGNAL_RESPONSE__MESSAGE_TRACK_PUBLISHED
  | LIVEKIT__SIGNAL_RESPONSE__MESSAGE_LEAVE
  | LIVEKIT__SIGNAL_RESPONSE__MESSAGE_MUTE
  | LIVEKIT__SIGNAL_RESPONSE__MESSAGE_SPEAKERS_CHANGED
  | LIVEKIT__SIGNAL_RESPONSE__MESSAGE_ROOM_UPDATE
  | OTHER (message_case : Nat)
  deriving DecidableEq, Repr

open Livekit__SignalTarget Livekit__TrackSource Livekit__SignalRequest
  Livekit__SignalResponse

/-- What the dispatcher does to the outside, in the order it does it: calls
of the session functions declared in `src/main.h`, and messages it writes to
the websocket. -/
inductive Action
  | lk_sub_set_remote_description (sdp : Str)
  | lk_sub_add_ice_candidate (description : Str)
  | lk_pub_set_remote_description (sdp : Str)
  | lk_pub_add_ice_candidate (description : Str)
  | lk_pub_reoffer
  | esp_websocket_client_send_bin (request : Livekit__SignalRequest)
  deriving DecidableEq, Repr

/-- One run of a dispatcher function: the actions it performed, and the
fatal condition that ended it, if it did not return. -/
structure Run where
  actions : List Action
  fatal : Option Fatal
  deriving DecidableEq, Repr

/-- The functions of the JSON library that `handle_livekit_response` calls,
over the library's item type `J`. The library is external; its functions are
inputs of the embedding. -/
structure cJSON_Lib (J : Type) where
  cJSON_Parse : Str → Option J
  cJSON_GetObjectItem : J → Str → Option J
  cJSON_IsString : J → Bool
  valuestring : J → Str

/-- The constant `TRACK_NAME`. -/
def TRACK_NAME : Str := "microphone".toList

/-- The function `lk_pack_and_send_signal_request`; `send` is what
`esp_websocket_client_send_bin` returns for the packed request. -/
def lk_pack_and_send_signal_request (send : Livekit__SignalRequest → Int)
    (r : Livekit__SignalRequest) : Run :=
  ⟨[Action.esp_websocket_client_send_bin r],
    if send r = -1 then some (Fatal.panic "Failed to send message.") else none⟩

/-- The function `add_track`. -/
def add_track (send : Livekit__SignalRequest → Int) (cid name : Str)
    (source : Livekit__TrackSource) : Run :=
  lk_pack_and_send_signal_request send
    (LIVEKIT__SIGNAL_REQUEST__MESSAGE_ADD_TRACK cid name source)

/-- The callback `on_sub_state`. -/
def on_sub_state (send : Livekit__SignalRequest → Int) (state : PeerConnectionState) :
    Run :=
  if state = PEER_CONNECTION_COMPLETED then
    add_track send TRACK_NAME TRACK_NAME LIVEKIT__TRACK_SOURCE__MICROPHONE
  else if state = PEER_CONNECTION_DISCONNECTED then
    ⟨[], some (Fatal.panic "Subscriber peer connection disconnected")⟩
  else ⟨[], none⟩

/-- The callback `on_pub_state`. -/
def on_pub_state (state : PeerConnectionState) : Run :=
  if state = PEER_CONNECTION_DISCONNECTED then
    ⟨[], some (Fatal.panic "Publisher peer connection disconnected")⟩
  else ⟨[], none⟩

/-- The callback `on_sub_signal`. -/
def on_sub_signal (send : Livekit__SignalRequest → Int) (type sdp : Str) : Run :=
  if type = "answer".toList then
    lk_pack_and_send_signal_request send (LIVEKIT__SIGNAL_REQUEST__MESSAGE_ANSWER type sdp)
  else ⟨[], some Fatal.assert_failed⟩

/-- The callback `on_pub_signal`. -/
def on_pub_signal (send : Livekit__SignalRequest → Int) (type sdp : Str) : Run :=
  if type = "offer".toList then
    lk_pack_and_send_signal_request send (LIVEKIT__SIGNAL_REQUEST__MESSAGE_OFFER type sdp)
  else ⟨[], some Fatal.assert_failed⟩

/-- The function `handle_livekit_response`. A call of a session function is
recorded as an action; what the session does with it, the fatal assertion
included, is the session function's own run. -/
def handle_livekit_response {J : Type} (json : cJSON_Lib J)
    (packet : Livekit__SignalResponse) : Run :=
  match packet with
  | LIVEKIT__SIGNAL_RESPONSE__MESSAGE_JOIN _ => ⟨[], none⟩
  | LIVEKIT__SIGNAL_RESPONSE__MESSAGE_TRICKLE candidateinit target =>
    -- Skip TCP ICE Candidates
    if (strstr candidateinit "tcp".toList).isSome then ⟨[], none⟩
    -- Skip non-IPv4 candidates
    else if (strchr candidateinit '.').isNone then ⟨[], none⟩
    else
      match json.cJSON_Parse candidateinit with
      | none => ⟨[], none⟩
      | some parsed =>
        match json.cJSON_GetObjectItem parsed "candidate".toList with
        | none => ⟨[], none⟩
        | some candidate_obj =>
          if json.cJSON_IsString candidate_obj then
            if target = LIVEKIT__SIGNAL_TARGET__SUBSCRIBER then
              ⟨[Action.lk_sub_add_ice_candidate (json.valuestring candidate_obj)], none⟩
            else
              ⟨[Action.lk_pub_add_ice_candidate (json.valuestring candidate_obj)], none⟩
          else ⟨[], none⟩
  | LIVEKIT__SIGNAL_RESPONSE__MESSAGE_OFFER sdp =>
    ⟨[Action.lk_sub_set_remote_description sdp], none⟩
  | LIVEKIT__SIGNAL_RESPONSE__MESSAGE_ANSWER sdp =>
    ⟨[Action.lk_pub_set_remote_description sdp], none⟩
  | LIVEKIT__SIGNAL_RESPONSE__MESSAGE_TRACK_PUBLISHED => ⟨[Action.lk_pub_reoffer], none⟩
  | LIVEKIT__SIGNAL_RESPONSE__MESSAGE_LEAVE =>
    ⟨[], some (Fatal.panic "Unexpected LEAVE message")⟩
  | LIVEKIT__SIGNAL_RESPONSE__MESSAGE_MUTE => ⟨[], none⟩
  | LIVEKIT__SIGNAL_RESPONSE__MESSAGE_SPEAKERS_CHANGED => ⟨[], none⟩
  | LIVEKIT__SIGNAL_RESPONSE__MESSAGE_ROOM_UPDATE => ⟨[], none⟩
  | LIVEKIT__SIGNAL_RESPONSE__MESSAGE__NOT_SET => ⟨[], none⟩
  | LIVEKIT__SIGNAL_RESPONSE__MESSAGE_UPDATE => ⟨[], none⟩
  | OTHER _ => ⟨[], none⟩

/-- The websocket events that `event_handler` is registered for; `OTHER`
stands for every event id that its `switch` does not name. -/
inductive esp_websocket_event_id_t
  | WEBSOCKET_EVENT_CONNECTED
  | WEBSOCKET_EVENT_DISCONNECTED
  | WEBSOCKET_EVENT_DATA
  | WEBSOCKET_EVENT_ERROR
  | OTHER (event_id : Nat)
  deriving DecidableEq, Repr

/-- The fields of `esp_websocket_event_data_t` that `event_handler` reads:
the opcode of the frame and its payload bytes. -/
structure esp_websocket_event_data_t where
  op_code : Nat
  data : List Nat
  deriving DecidableEq, Repr

open esp_websocket_event_id_t

/-- The function `event_handler`; `unpack` is the external decoder
`livekit__signal_response__unpack`, with `none` for a `NULL` result. -/
def event_handler {J : Type} (json : cJSON_Lib J)
    (unpack : List Nat → Option Livekit__SignalResponse)
    (event_id : esp_websocket_event_id_t) (data : esp_websocket_event_data_t) : Run :=
  match event_id with
  | WEBSOCKET_EVENT_CONNECTED => ⟨[], none⟩
  | WEBSOCKET_EVENT_DISCONNECTED =>
    ⟨[], some (Fatal.panic "LiveKit websocket disconnected")⟩
  | WEBSOCKET_EVENT_DATA =>
    if data.op_code ≠ 2 then ⟨[], none⟩
    else
      match unpack data.data with
      | none => ⟨[], some (Fatal.panic "Failed to decode SignalResponse message.")⟩
      | some new_response => handle_livekit_response json new_response
  | WEBSOCKET_EVENT_ERROR => ⟨[], some (Fatal.panic "LiveKit websocket error")⟩
  | esp_websocket_event_id_t.OTHER _ => ⟨[], none⟩

/-- The wiring `lk_sub_create(on_sub_state, on_sub_signal)` made by
`lk_websocket`: what the dispatcher does on an event of the Subscriber
Session. Calls into the engine are not the dispatcher's. -/
def sub_session_event (send : Livekit__SignalRequest → Int) : Event → Run
  | Event.g_state_cb state => on_sub_state send state
  | Event.g_signal_cb type message => on_sub_signal send type message
  | _ => ⟨[], none⟩

/-- The wiring `lk_pub_create(on_pub_state, on_pub_signal)` made by
`lk_websocket`: what the dispatcher does on an event of the Publisher
Session. Calls into the engine are not the dispatcher's. -/
def pub_session_event (send : Livekit__SignalRequest → Int) : Event → Run
  | Event.g_state_cb state => on_pub_state state
  | Event.g_signal_cb type message => on_pub_signal send type message
  | _ => ⟨[], none⟩

/-- The action is the sending of an AddTrack request. -/
def Action.isAddTrack : Action → Bool
  | Action.esp_websocket_client_send_bin
      (LIVEKIT__SIGNAL_REQUEST__MESSAGE_ADD_TRACK _ _ _) => true
  | _ => false

/-! ## Audio capture (`src/media.cpp`) -/

/-- The number of values of `size_t`, which has 32 bits on the target:
arithmetic in `size_t` is taken modulo this number. -/
def size_t_modulus : Nat := 2 ^ 32

/-- The macro `EXAMPLE_NUM_CHANNELS`. -/
def EXAMPLE_NUM_CHANNELS : Nat := 2

/-- The macro `EXAMPLE_SAMPLE_RATE`. -/
def EXAMPLE_SAMPLE_RATE : Nat := 16000

/-- The value of `sizeof(uint16_t)`. -/
def sizeof_uint16_t : Nat := 2

/-- The macro `EXAMPLE_BUFFER_SIZE`: the bytes of 20 ms of audio. -/
def EXAMPLE_BUFFER_SIZE : Nat :=
  EXAMPLE_SAMPLE_RATE * EXAMPLE_NUM_CHANNELS * sizeof_uint16_t * 20 / 1000

/-- The static variables of `src/media.cpp` that capture uses: the bytes of
the buffer that `lk_init_audio` allocates, and the count of bytes captured
into it. -/
structure MediaState where
  capture_buffer : List Nat
  bytes_captured : Nat
  deriving DecidableEq, Repr

/-- The function `lk_capture_audio`. The hardware read `i2s_channel_read` is
an input: for the number of bytes requested it gives the bytes it delivers,
whose number is `bytes_read`. The read stores them at `ptr`, which is
`bytes_captured / 2` samples of two bytes into the buffer. The result is
`none` for `NULL`, or the contents of the buffer together with the size
written to `*bytes`; the second component is the state afterwards. -/
def lk_capture_audio (i2s_channel_read : Nat → List Nat) (m : MediaState) :
    Option (List Nat × Nat) × MediaState :=
  let bytes_to_read :=
    (EXAMPLE_BUFFER_SIZE + size_t_modulus - m.bytes_captured) % size_t_modulus
  let ptr := m.bytes_captured / 2 * 2
  let data := i2s_channel_read bytes_to_read
  let bytes_read := data.length
  let capture_buffer :=
    m.capture_buffer.take ptr ++ data ++ m.capture_buffer.drop (ptr + bytes_read)
  let bytes_captured := (m.bytes_captured + bytes_read) % size_t_modulus
  if bytes_read < bytes_to_read then
    (none, { capture_buffer := capture_buffer, bytes_captured := bytes_captured })
  else
    (some (capture_buffer, bytes_captured),
      { capture_buffer := capture_buffer, bytes_captured := 0 })

/-! ## The session tasks (`pc_task` in `src/lk_sub.cpp` and `src/lk_pub.cpp`) -/

namespace lk_sub

/-- One pass through the loop of `pc_task` in `src/lk_sub.cpp`: the engine is
stepped under the mutex. -/
def pc_task_iteration (s : SubState) : Step SubState :=
  ⟨[Event.peer_connection_loop], .ok s⟩

end lk_sub

namespace lk_pub

/-- The macro `SAMPLE_RATE` of `src/lk_pub.cpp`. -/
def SAMPLE_RATE : Nat := 16000

/-- The macro `NUM_CHANNELS` of `src/lk_pub.cpp`. -/
def NUM_CHANNELS : Nat := 2

/-- The value of `sizeof(opus_int16)`. -/
def sizeof_opus_int16 : Nat := 2

/-- The macro `OPUS_ENCODE_BUFFER_SAMPLES_PER_CHANNEL`. -/
def OPUS_ENCODE_BUFFER_SAMPLES_PER_CHANNEL : Nat := SAMPLE_RATE / 1000 * 20

/-- The macro `OPUS_ENCODE_BUFFER_SIZE`. -/
def OPUS_ENCODE_BUFFER_SIZE : Nat :=
  OPUS_ENCODE_BUFFER_SAMPLES_PER_CHANNEL * NUM_CHANNELS * sizeof_opus_int16

/-- The function `encode_audio`; `opus_encode` is what the encoder returns
for the frame, stored into the `size_t` variable `out_bytes`. -/
def encode_audio (opus_encode : List Nat → Int) (data : List Nat) (in_bytes : Nat) :
    Step Unit :=
  if in_bytes = OPUS_ENCODE_BUFFER_SIZE then
    ⟨[Event.peer_connection_send_audio
        (opus_encode data % (size_t_modulus : Int)).toNat], .ok ()⟩
  else ⟨[], .error Fatal.assert_failed⟩

/-- One pass through the loop of `pc_task` in `src/lk_pub.cpp`; `state` is
what `peer_connection_get_state(g_pc)` returns at the top of the pass. When
the engine is Connected a frame is captured; a captured frame is encoded and
sent; the engine is stepped. -/
def pc_task_iteration (state : PeerConnectionState) (i2s_channel_read : Nat → List Nat)
    (opus_encode : List Nat → Int) (s : PubState) (m : MediaState) :
    Step (PubState × MediaState) :=
  let captured :=
    if state = PEER_CONNECTION_COMPLETED then lk_capture_audio i2s_channel_read m
    else (none, m)
  match captured.1 with
  | some (data, bytes) =>
    match (encode_audio opus_encode data bytes).result with
    | .ok _ =>
      ⟨(encode_audio opus_encode data bytes).events ++ [Event.peer_connection_loop],
        .ok (s, captured.2)⟩
    | .error f => ⟨(encode_audio opus_encode data bytes).events, .error f⟩
  | none => ⟨[Event.peer_connection_loop], .ok (s, captured.2)⟩

end lk_pub

/-! ## Sequences of session operations -/

/-- The operations on the Subscriber Session: the two functions the
dispatcher calls, a pass of the task loop, and the two callbacks of the
engine. -/
inductive SubOp
  | lk_sub_set_remote_description (offer : Str)
  | lk_sub_add_ice_candidate (description : Str)
  | pc_task_iteration
  | on_ice_candidate (description : Str)
  | on_ice_state_change (state : PeerConnectionState)

/-- The operations on the Publisher Session: the three functions the
dispatcher calls, a pass of the task loop with the hardware read of that
pass, and the two callbacks of the engine. -/
inductive PubOp
  | lk_pub_set_remote_description (sdp : Str)
  | lk_pub_add_ice_candidate (description : Str)
  | lk_pub_reoffer
  | pc_task_iteration (i2s_channel_read : Nat → List Nat)
  | on_ice_candidate (description : Str)
  | on_ice_state_change (state : PeerConnectionState)

/-- A step on the Publisher Session, seen as a step on the session together
with the capture state, which it leaves alone. -/
def withMedia (m : MediaState) (r : Step PubState) : Step (PubState × MediaState) :=
  match r.result with
  | .ok s => ⟨r.events, .ok (s, m)⟩
  | .error f => ⟨r.events, .error f⟩

/-- One operation on the Subscriber Session, the engine reporting `state`. -/
def lk_sub.operation (state : PeerConnectionState) : SubOp → SubState → Step SubState
  | SubOp.lk_sub_set_remote_description offer, s =>
    lk_sub_set_remote_description state s offer
  | SubOp.lk_sub_add_ice_candidate description, s =>
    lk_sub_add_ice_candidate state s description
  | SubOp.pc_task_iteration, s => lk_sub.pc_task_iteration s
  | SubOp.on_ice_candidate description, s => lk_sub.on_ice_candidate s description
  | SubOp.on_ice_state_change reported, s => lk_sub.on_ice_state_change s reported

/-- One operation on the Publisher Session and its capture state, the engine
reporting `state`. -/
def lk_pub.operation (opus_encode : List Nat → Int) (state : PeerConnectionState) :
    PubOp → PubState × MediaState → Step (PubState × MediaState)
  | PubOp.lk_pub_set_remote_description sdp, (s, m) =>
    withMedia m (lk_pub_set_remote_description state s sdp)
  | PubOp.lk_pub_add_ice_candidate description, (s, m) =>
    withMedia m (lk_pub_add_ice_candidate state s description)
  | PubOp.lk_pub_reoffer, (s, m) => withMedia m (lk_pub_reoffer s)
  | PubOp.pc_task_iteration i2s_channel_read, (s, m) =>
    lk_pub.pc_task_iteration state i2s_channel_read opus_encode s m
  | PubOp.on_ice_candidate description, (s, m) =>
    withMedia m (lk_pub.on_ice_candidate s description)
  | PubOp.on_ice_state_change reported, (s, m) =>
    withMedia m (lk_pub.on_ice_state_change s reported)

/-- A sequence of operations, one after the other: the events add up, and the
first fatal condition ends the sequence. -/
def runOps {σ ο : Type} (operation : ο → σ → Step σ) : List ο → σ → Step σ
  | [], s => ⟨[], .ok s⟩
  | op :: rest, s =>
    match (operation op s).result with
    | .ok s' =>
      ⟨(operation op s).events ++ (runOps operation rest s').events,
        (runOps operation rest s').result⟩
    | .error f => ⟨(operation op s).events, .error f⟩

/-- The event is the call `peer_connection_add_ice_candidate`, which applies
a candidate to the engine. -/
def Event.isAddIceCandidate : Event → Bool
  | Event.peer_connection_add_ice_candidate _ => true
  | _ => false

/-- The action is a call of a function of the Subscriber Session. -/
def Action.isSubscriberCall : Action → Bool
  | Action.lk_sub_set_remote_description _ => true
  | Action.lk_sub_add_ice_candidate _ => true
  | _ => false

/-- The action is a call of a function of the Publisher Session. -/
def Action.isPublisherCall : Action → Bool
  | Action.lk_pub_set_remote_description _ => true
  | Action.lk_pub_add_ice_candidate _ => true
  | Action.lk_pub_reoffer => true
  | _ => false

/-- The event is a call of the signal callback `g_signal_cb`, which hands a
session description to the dispatcher. -/
def Event.isSignal : Event → Bool
  | Event.g_signal_cb _ _ => true
  | _ => false

/-! ## Session descriptions for the worked instances -/

/-- A small session description used in the worked instances: session
header, one audio section, one data-channel section. -/
def exHeader : Str := "v=0\ns=-\n".toList

/-- The audio section of the worked instance. -/
def exAudio : Str := "m=audio 9 UDP/TLS/RTP/SAVPF 111\na=mid:0\n".toList

/-- The data-channel section of the worked instance. -/
def exData : Str := "m=application 50712 UDP/DTLS/SCTP webrtc-datachannel\na=mid:1\n".toList

/-- An offer with a data-channel section followed by an audio section. -/
def exOfferDataAudio : Str :=
  "v=0\nm=application 9 UDP/DTLS/SCTP webrtc-datachannel\nm=audio 9 UDP/TLS/RTP/SAVPF 111\n".toList

/-- An offer with a data-channel section only. -/
def exOfferData : Str :=
  "v=0\nm=application 9 UDP/DTLS/SCTP webrtc-datachannel\n".toList

/-- An offer with an audio section followed by a data-channel section. -/
def exOfferAudioData : Str :=
  "v=0\nm=audio 9 UDP/TLS/RTP/SAVPF 111\nm=application 9 UDP/DTLS/SCTP webrtc-datachannel\n".toList

/-- A candidate string of the worked instances. -/
def exCandidateA : Str := "candidate:1 1 udp 2130706431 192.168.1.7 50000 typ host".toList

/-- A second candidate string of the worked instances. -/
def exCandidateB : Str := "candidate:2 1 udp 1694498815 203.0.113.9 50001 typ srflx".toList

/-- The local description of the worked instances. -/
def exLocal : Str := exHeader ++ exAudio ++ exData

/-- A transport on which every send succeeds. -/
def exSend : Livekit__SignalRequest → Int := fun _ => 0

/-- A JSON library for the worked instances: every payload parses, and the
item found under any name is a string item whose value is the payload. -/
def exJson : cJSON_Lib Str where
  cJSON_Parse := fun payload => some payload
  cJSON_GetObjectItem := fun item _ => some item
  cJSON_IsString := fun _ => true
  valuestring := fun item => item

/-- A trickle payload for a TCP candidate. -/
def exPayloadTcp : Str :=
  "\x7b\"candidate\":\"candidate:3 1 tcp 1518280447 192.168.1.7 9 typ host tcptype active\"\x7d".toList

/-- A trickle payload for an IPv6 candidate. -/
def exPayloadIpv6 : Str :=
  "\x7b\"candidate\":\"candidate:4 1 udp 2130706431 2001:db8::7 50002 typ host\"\x7d".toList

/-- A trickle payload for a UDP candidate with an IPv4 address. -/
def exPayloadUdp : Str :=
  "\x7b\"candidate\":\"candidate:1 1 udp 2130706431 192.168.1.7 50000 typ host\"\x7d".toList

/-- A hardware read that delivers at most 64 bytes, all zero. -/
def exRead : Nat → List Nat := fun requested => List.replicate (min requested 64) 0

/-- A capture state with all but the last four bytes of a frame captured. -/
def exMedia : MediaState := ⟨List.replicate 1280 7, 1276⟩

/-- The capture state after `lk_init_audio`: a buffer of the frame size and
nothing captured. -/
def exMediaStart : MediaState := ⟨List.replicate 1280 7, 0⟩

/-- A hardware read that delivers the three bytes 1, 2, 3, or as many of
them as are requested. -/
def exReadThree : Nat → List Nat := fun requested => [1, 2, 3].take requested

/-- A hardware read that delivers the two bytes 9, 9, or as many of them as
are requested. -/
def exReadTwo : Nat → List Nat := fun requested => [9, 9].take requested

/-- Operations on a subscriber: two offers with a pass of the task loop in
between. -/
def exSubOps : List SubOp :=
  [SubOp.lk_sub_set_remote_description exOfferData, SubOp.pc_task_iteration,
    SubOp.lk_sub_set_remote_description exOfferDataAudio]

/-- Operations on a publisher: an answer, a renegotiation request, a pass of
the task loop and another answer. -/
def exPubOps : List PubOp :=
  [PubOp.lk_pub_set_remote_description exOfferData, PubOp.lk_pub_reoffer,
    PubOp.pc_task_iteration exRead, PubOp.lk_pub_set_remote_description exOfferData]

/-- A subscriber that holds a candidate. -/
def exSubHolding : SubState := ⟨none, some exCandidateA, some exLocal⟩

/-- A publisher that holds a candidate. -/
def exPubHolding : PubState := ⟨some exLocal, none, some exCandidateA⟩

/-! ## Facts about the string functions -/

theorem strstr_eq_some_zero_iff (hay needle : Str) :
    strstr hay needle = some 0 ↔ needle <+: hay := by
  cases hay with
  | nil =>
    by_cases h : needle.isPrefixOf [] = true
    · simp only [strstr, h, if_true, true_iff]
      exact List.isPrefixOf_iff_prefix.mp h
    · have h2 : ¬ needle <+: [] := fun hp => h (List.isPrefixOf_iff_prefix.mpr hp)
      simp [strstr, h, h2]
  | cons c cs =>
    by_cases h : needle.isPrefixOf (c :: cs) = true
    · simp only [strstr, h, if_true, true_iff]
      exact List.isPrefixOf_iff_prefix.mp h
    · have h2 : ¬ needle <+: c :: cs := fun hp => h (List.isPrefixOf_iff_prefix.mpr hp)
      constructor
      · intro hs
        simp only [strstr, h] at hs
        cases hr : strstr cs needle <;> simp [hr] at hs
      · intro hp
        exact absurd hp h2

/-- Meaning of `strstr`: it returns the offset of the first occurrence. -/
theorem strstr_eq_some_iff (hay needle : Str) (k : Nat) :
    strstr hay needle = some k ↔ FirstAt needle hay k := by
  induction hay generalizing k with
  | nil =>
    cases k with
    | zero =>
      rw [strstr_eq_some_zero_iff]
      simp [FirstAt]
    | succ k =>
      constructor
      · intro hs
        by_cases h : needle.isPrefixOf [] = true
        · simp [strstr, h] at hs
        · simp [strstr, h] at hs
      · intro hf
        have h0 := hf.2 0 (Nat.succ_pos k)
        have h1 := hf.1
        simp at h0 h1
        exact absurd h1 h0
  | cons c cs ih =>
    cases k with
    | zero =>
      rw [strstr_eq_some_zero_iff]
      simp [FirstAt]
    | succ k =>
      by_cases h : needle.isPrefixOf (c :: cs) = true
      · have hp : needle <+: c :: cs := List.isPrefixOf_iff_prefix.mp h
        constructor
        · intro hs
          simp [strstr, h] at hs
        · intro hf
          exact absurd hp (by simpa using hf.2 0 (Nat.succ_pos k))
      · have h2 : ¬ needle <+: c :: cs :=
          fun hp => h (List.isPrefixOf_iff_prefix.mpr hp)
        have hstep : strstr (c :: cs) needle = (strstr cs needle).map (· + 1) := by
          simp [strstr, h]
        rw [hstep]
        constructor
        · intro hs
          cases hr : strstr cs needle with
          | none => simp [hr] at hs
          | some m =>
            simp [hr] at hs
            subst hs
            have hm := (ih m).mp hr
            refine ⟨by simpa using hm.1, ?_⟩
            intro j hj
            cases j with
            | zero => simpa using h2
            | succ j => simpa using hm.2 j (by omega)
        · intro hf
          have hm : FirstAt needle cs k := by
            refine ⟨by simpa using hf.1, ?_⟩
            intro j hj
            simpa using hf.2 (j + 1) (by omega)
          rw [(ih k).mpr hm]
          rfl

/-- A `strstr` result is not `NULL` exactly when the needle occurs. -/
theorem strstr_isSome_iff (hay needle : Str) :
    (strstr hay needle).isSome = true ↔ needle <:+: hay := by
  induction hay with
  | nil =>
    by_cases h : needle.isPrefixOf [] = true
    · have hp : needle <+: [] := List.isPrefixOf_iff_prefix.mp h
      simp [strstr, h, hp.isInfix]
    · have h2 : ¬ needle <+: [] := fun hp => h (List.isPrefixOf_iff_prefix.mpr hp)
      have h3 : ¬ needle = [] := by simpa using h2
      simp [strstr, h, h3]
  | cons c cs ih =>
    rw [List.infix_cons_iff]
    by_cases h : needle.isPrefixOf (c :: cs) = true
    · have hp : needle <+: c :: cs := List.isPrefixOf_iff_prefix.mp h
      simp [strstr, h, hp]
    · have h2 : ¬ needle <+: c :: cs :=
        fun hp => h (List.isPrefixOf_iff_prefix.mpr hp)
      have hstep : strstr (c :: cs) needle = (strstr cs needle).map (· + 1) := by
        simp [strstr, h]
      rw [hstep, Option.isSome_map']
      simp [ih, h2]

/-- The answer `create_answer` builds from a local description cut at the
offsets that `strstr` finds: header, data section, and the audio section when
the offer has one. -/
theorem create_answer_split (offer header audio data : Str)
    (haudio : FirstAt m_audio (header ++ audio ++ data) header.length)
    (hdata : FirstAt m_application (header ++ audio ++ data)
      (header.length + audio.length)) :
    create_answer offer (header ++ audio ++ data) =
      some (if (strstr offer m_audio).isSome then header ++ data ++ audio
            else header ++ data) := by
  have ha := (strstr_eq_some_iff _ _ _).mpr haudio
  have hd := (strstr_eq_some_iff _ _ _).mpr hdata
  have e1 : List.take header.length (header ++ audio ++ data) = header := by
    simp [List.append_assoc]
  have e2 : List.drop (header.length + audio.length) (header ++ audio ++ data) = data := by
    rw [← List.length_append]
    exact List.drop_left (header ++ audio) data
  have e3 : List.take audio.length (List.drop header.length (header ++ audio ++ data))
      = audio := by
    simp [List.append_assoc]
  unfold create_answer
  simp only [ha, hd, strncpy, strlen, e1, e2, e3, Nat.le_add_right, if_true,
    Nat.add_sub_cancel_left, List.take_length]

/-- A `strchr` result is `NULL` exactly when the character does not occur. -/
theorem strchr_isNone_iff (s : Str) (c : Char) :
    (strchr s c).isNone = true ↔ ¬ c ∈ s := by
  induction s with
  | nil => simp [strchr]
  | cons x rest ih =>
    by_cases hx : x = c
    · simp [strchr, hx]
    · have hx' : ¬ c = x := fun h => hx h.symm
      simp only [strchr, hx, if_false, List.mem_cons, hx', false_or]
      rw [← ih]
      cases strchr rest c <;> simp

/-! ## Facts about media sections -/

/-- A string that is empty or starts with the letter `m`: appended to another
string, it cannot complete a media line begun there. -/
theorem isPrefixOf_append_of_not_mem (ps xs b : Str) (hps : ¬ 'm' ∈ ps)
    (hb : b = [] ∨ ∃ t, b = 'm' :: t) :
    ps.isPrefixOf (xs ++ b) = ps.isPrefixOf xs := by
  induction xs generalizing ps with
  | nil =>
    cases ps with
    | nil => simp
    | cons q qs =>
      have hq : ¬ q = 'm' := fun h => hps (by simp [h])
      rcases hb with hb | ⟨t, hb⟩
      · subst hb; rfl
      · subst hb
        simp [List.isPrefixOf, hq]
  | cons y ys ih =>
    cases ps with
    | nil => simp
    | cons q qs =>
      have hqs : ¬ 'm' ∈ qs := fun h => hps (List.mem_cons_of_mem q h)
      rw [List.cons_append, List.isPrefixOf_cons₂, List.isPrefixOf_cons₂, ih qs hqs]

theorem isPrefixOf_cons_append (p : Char) (ps : Str) (x : Char) (xs b : Str)
    (hps : ¬ 'm' ∈ ps) (hb : b = [] ∨ ∃ t, b = 'm' :: t) :
    (p :: ps).isPrefixOf (x :: xs ++ b) = (p :: ps).isPrefixOf (x :: xs) := by
  rw [List.cons_append, List.isPrefixOf_cons₂, List.isPrefixOf_cons₂,
    isPrefixOf_append_of_not_mem ps xs b hps hb]

theorem mediaKindAt_eq_audio (s : Str) (h : mediaKindAt s = some MediaKind.audio) :
    m_audio.isPrefixOf s = true := by
  unfold mediaKindAt at h
  by_cases h1 : m_audio.isPrefixOf s = true
  · exact h1
  · by_cases h2 : m_application.isPrefixOf s = true
    · simp [h1, h2] at h
    · by_cases h3 : m_line.isPrefixOf s = true
      · simp [h1, h2, h3] at h
      · simp [h1, h2, h3] at h

theorem mediaKindAt_append (x : Char) (xs b : Str) (hb : b = [] ∨ ∃ t, b = 'm' :: t) :
    mediaKindAt (x :: xs ++ b) = mediaKindAt (x :: xs) := by
  have h1 : m_audio.isPrefixOf (x :: xs ++ b) = m_audio.isPrefixOf (x :: xs) := by
    have e : m_audio = 'm' :: "=audio".toList := rfl
    rw [e]
    exact isPrefixOf_cons_append 'm' _ x xs b (by decide) hb
  have h2 : m_application.isPrefixOf (x :: xs ++ b) = m_application.isPrefixOf (x :: xs) := by
    have e : m_application = 'm' :: "=application".toList := rfl
    rw [e]
    exact isPrefixOf_cons_append 'm' _ x xs b (by decide) hb
  have h3 : m_line.isPrefixOf (x :: xs ++ b) = m_line.isPrefixOf (x :: xs) := by
    have e : m_line = 'm' :: "=".toList := rfl
    rw [e]
    exact isPrefixOf_cons_append 'm' _ x xs b (by decide) hb
  simp only [mediaKindAt, h1, h2, h3]

/-- The media sections of a concatenation are those of its parts, when the
second part is empty or starts a media line itself. -/
theorem mediaSections_append (a b : Str) (hb : b = [] ∨ ∃ t, b = 'm' :: t) :
    mediaSections (a ++ b) = mediaSections a ++ mediaSections b := by
  induction a with
  | nil => simp [mediaSections]
  | cons x xs ih =>
    have hk := mediaKindAt_append x xs b hb
    have e : x :: xs ++ b = x :: (xs ++ b) := rfl
    rw [e] at hk ⊢
    simp only [mediaSections, hk, ih]
    cases mediaKindAt (x :: xs) <;> simp

theorem mem_mediaSections_of_infix (s : Str) (h : m_audio <:+: s) :
    MediaKind.audio ∈ mediaSections s := by
  induction s with
  | nil =>
    have : m_audio = [] := by simpa using h
    exact absurd this (by decide)
  | cons c rest ih =>
    rcases List.infix_cons_iff.mp h with hp | hi
    · have hb : m_audio.isPrefixOf (c :: rest) = true := List.isPrefixOf_iff_prefix.mpr hp
      simp [mediaSections, mediaKindAt, hb]
    · have := ih hi
      simp only [mediaSections]
      cases mediaKindAt (c :: rest) <;> simp [this]

theorem infix_of_mem_mediaSections (s : Str) (h : MediaKind.audio ∈ mediaSections s) :
    m_audio <:+: s := by
  induction s with
  | nil => simp [mediaSections] at h
  | cons c rest ih =>
    rw [List.infix_cons_iff]
    by_cases hb : m_audio.isPrefixOf (c :: rest) = true
    · exact Or.inl (List.isPrefixOf_iff_prefix.mp hb)
    · right
      apply ih
      simp only [mediaSections] at h
      cases hk : mediaKindAt (c :: rest) with
      | none =>
        rw [hk] at h
        exact h
      | some k =>
        rw [hk] at h
        rcases List.mem_cons.mp h with h1 | h1
        · rw [← h1] at hk
          exact absurd (mediaKindAt_eq_audio _ hk) hb
        · exact h1

/-- The sections of the three parts of a local description that is header,
audio section, data section and has these two media sections only. -/
theorem local_sections (header audio data : Str)
    (haudio : FirstAt m_audio (header ++ audio ++ data) header.length)
    (hdata : FirstAt m_application (header ++ audio ++ data)
      (header.length + audio.length))
    (hlocal : mediaSections (header ++ audio ++ data) =
      [MediaKind.audio, MediaKind.application]) :
    mediaSections header = [] ∧ mediaSections audio = [MediaKind.audio] ∧
    mediaSections data = [MediaKind.application] ∧
    (∃ t, audio = 'm' :: t) ∧ (∃ t, data = 'm' :: t) := by
  have hpa : m_audio <+: audio ++ data := by
    have := haudio.1
    simpa [List.append_assoc] using this
  have hpd : m_application <+: data := by
    have := hdata.1
    rw [← List.length_append, List.drop_left (header ++ audio) data] at this
    exact this
  -- the data section starts a media line, of kind application
  obtain ⟨d', hd'⟩ : ∃ t, data = 'm' :: t := by
    obtain ⟨r, hr⟩ := hpd
    exact ⟨"=application".toList ++ r, by rw [← hr]; rfl⟩
  have hnot : ¬ m_audio <+: data := by
    intro h
    have := List.prefix_of_prefix_length_le h hpd (by decide)
    exact absurd this (by decide)
  -- the audio section is not empty and holds the whole of its media line
  obtain ⟨x, xs, hx⟩ : ∃ x xs, audio = x :: xs := by
    cases audio with
    | nil => exact absurd (by simpa using hpa) hnot
    | cons x xs => exact ⟨x, xs, rfl⟩
  have hba : m_audio.isPrefixOf audio = true := by
    have h1 : m_audio.isPrefixOf (audio ++ data) = true :=
      List.isPrefixOf_iff_prefix.mpr hpa
    have e : m_audio = 'm' :: "=audio".toList := rfl
    rw [hx, e] at h1 ⊢
    rw [isPrefixOf_cons_append 'm' _ x xs data (by decide) (Or.inr ⟨d', hd'⟩)] at h1
    exact h1
  obtain ⟨a', ha'⟩ : ∃ t, audio = 'm' :: t := by
    obtain ⟨r, hr⟩ := List.isPrefixOf_iff_prefix.mp hba
    exact ⟨"=audio".toList ++ r, by rw [← hr]; rfl⟩
  have hsa : ∃ r, mediaSections audio = MediaKind.audio :: r := by
    rw [hx] at hba ⊢
    exact ⟨mediaSections xs, by simp [mediaSections, mediaKindAt, hba]⟩
  have hsd : ∃ r, mediaSections data = MediaKind.application :: r := by
    have h1 : m_audio.isPrefixOf data = false := by
      cases h : m_audio.isPrefixOf data
      · rfl
      · exact absurd (List.isPrefixOf_iff_prefix.mp h) hnot
    have h2 : m_application.isPrefixOf data = true := List.isPrefixOf_iff_prefix.mpr hpd
    rw [hd'] at h1 h2 ⊢
    exact ⟨mediaSections d', by simp [mediaSections, mediaKindAt, h1, h2]⟩
  obtain ⟨ra, hra⟩ := hsa
  obtain ⟨rd, hrd⟩ := hsd
  have hsplit : mediaSections (header ++ audio ++ data) =
      mediaSections header ++ (MediaKind.audio :: ra) ++ (MediaKind.application :: rd) := by
    rw [mediaSections_append (header ++ audio) data (Or.inr ⟨d', hd'⟩),
      mediaSections_append header audio (Or.inr ⟨a', ha'⟩), hra, hrd]
  rw [hsplit] at hlocal
  have hlen := congrArg List.length hlocal
  simp only [List.length_append, List.length_cons, List.length_nil] at hlen
  have h0 : mediaSections header = [] := List.eq_nil_of_length_eq_zero (by omega)
  have h1 : ra = [] := List.eq_nil_of_length_eq_zero (by omega)
  have h2 : rd = [] := List.eq_nil_of_length_eq_zero (by omega)
  subst h1 h2
  exact ⟨h0, hra, hrd, ⟨a', ha'⟩, ⟨d', hd'⟩⟩

/-! ## Answer synthesis: the claims -/

theorem exLocal_audio_first :
    FirstAt m_audio (exHeader ++ exAudio ++ exData) exHeader.length :=
  (strstr_eq_some_iff _ _ _).mp (by decide)

theorem exLocal_data_first :
    FirstAt m_application (exHeader ++ exAudio ++ exData)
      (exHeader.length + exAudio.length) :=
  (strstr_eq_some_iff _ _ _).mp (by decide)

/-- C1: when the remote offer contains `m=audio` and the local description is
header ++ audio section ++ data section, the audio section starting at the
first `m=audio` and the data section at the first `m=application`,
`create_answer` returns exactly header ++ data section ++ audio section, and
the length of that answer is the sum of the three lengths. -/
theorem create_answer_audio_present (offer header audio data : Str)
    (hoffer : m_audio <:+: offer)
    (haudio : FirstAt m_audio (header ++ audio ++ data) header.length)
    (hdata : FirstAt m_application (header ++ audio ++ data)
      (header.length + audio.length)) :
    ∃ answer, create_answer offer (header ++ audio ++ data) = some answer ∧
      answer = header ++ data ++ audio ∧
      strlen answer = strlen header + strlen data + strlen audio := by
  have hinc : (strstr offer m_audio).isSome = true :=
    (strstr_isSome_iff offer m_audio).mpr hoffer
  refine ⟨header ++ data ++ audio, ?_, rfl, ?_⟩
  · rw [create_answer_split offer header audio data haudio hdata, if_pos hinc]
  · simp [strlen, Nat.add_assoc]

theorem create_answer_audio_present_witness :
    m_audio <:+: exOfferDataAudio ∧
    ∃ answer, create_answer exOfferDataAudio (exHeader ++ exAudio ++ exData) = some answer ∧
      answer = exHeader ++ exData ++ exAudio ∧
      strlen answer = strlen exHeader + strlen exData + strlen exAudio :=
  ⟨(strstr_isSome_iff _ _).mp (by decide),
   create_answer_audio_present exOfferDataAudio exHeader exAudio exData
    ((strstr_isSome_iff _ _).mp (by decide)) exLocal_audio_first exLocal_data_first⟩

/-- C2: when the remote offer contains no `m=audio` and the local description
is header ++ audio section ++ data section, `create_answer` returns exactly
header ++ data section: nothing of the audio section is copied. -/
theorem create_answer_data_only (offer header audio data : Str)
    (hoffer : ¬ m_audio <:+: offer)
    (haudio : FirstAt m_audio (header ++ audio ++ data) header.length)
    (hdata : FirstAt m_application (header ++ audio ++ data)
      (header.length + audio.length)) :
    create_answer offer (header ++ audio ++ data) = some (header ++ data) := by
  have hinc : ¬ (strstr offer m_audio).isSome = true :=
    fun h => hoffer ((strstr_isSome_iff offer m_audio).mp h)
  rw [create_answer_split offer header audio data haudio hdata, if_neg hinc]

theorem create_answer_data_only_witness :
    ¬ m_audio <:+: exOfferData ∧
    create_answer exOfferData (exHeader ++ exAudio ++ exData) = some (exHeader ++ exData) :=
  ⟨fun h => absurd ((strstr_isSome_iff _ _).mpr h) (by decide),
   create_answer_data_only exOfferData exHeader exAudio exData
    (fun h => absurd ((strstr_isSome_iff _ _).mpr h) (by decide))
    exLocal_audio_first exLocal_data_first⟩

/-- C3, refuted as stated: on an offer with an audio section followed by a
data-channel section and a local description of the stated form, the answer
has the data-channel section first, so its sections are not in the order of
the offer. -/
theorem create_answer_order_counterexample :
    FirstAt m_audio (exHeader ++ exAudio ++ exData) exHeader.length ∧
    FirstAt m_application (exHeader ++ exAudio ++ exData)
      (exHeader.length + exAudio.length) ∧
    create_answer exOfferAudioData (exHeader ++ exAudio ++ exData) =
      some (exHeader ++ exData ++ exAudio) ∧
    mediaSections exOfferAudioData = [MediaKind.audio, MediaKind.application] ∧
    mediaSections (exHeader ++ exData ++ exAudio) =
      [MediaKind.application, MediaKind.audio] ∧
    mediaSections (exHeader ++ exData ++ exAudio) ≠ mediaSections exOfferAudioData :=
  ⟨exLocal_audio_first, exLocal_data_first, by decide, by decide, by decide, by decide⟩

/-- C3, amended: for every remote offer and every local description that is
header ++ audio section ++ data section with these two media sections only,
the answer of `create_answer` contains a data-channel section; its media
sections are the data-channel section followed by the audio section when
the offer has an audio section, and the data-channel section alone when it
has none; so the answer has the media sections of the offer, in the same
number and order, exactly when the offer is a data-channel section
optionally followed by an audio section. -/
theorem create_answer_sections (offer header audio data : Str)
    (haudio : FirstAt m_audio (header ++ audio ++ data) header.length)
    (hdata : FirstAt m_application (header ++ audio ++ data)
      (header.length + audio.length))
    (hlocal : mediaSections (header ++ audio ++ data) =
      [MediaKind.audio, MediaKind.application]) :
    ∃ answer, create_answer offer (header ++ audio ++ data) = some answer ∧
      MediaKind.application ∈ mediaSections answer ∧
      (MediaKind.audio ∈ mediaSections offer →
        mediaSections answer = [MediaKind.application, MediaKind.audio]) ∧
      (¬ MediaKind.audio ∈ mediaSections offer →
        mediaSections answer = [MediaKind.application]) ∧
      (mediaSections answer = mediaSections offer ↔
        (mediaSections offer = [MediaKind.application] ∨
         mediaSections offer = [MediaKind.application, MediaKind.audio])) := by
  obtain ⟨h0, hsa, hsd, hma, hmd⟩ := local_sections header audio data haudio hdata hlocal
  have hsplit := create_answer_split offer header audio data haudio hdata
  by_cases hinc : (strstr offer m_audio).isSome = true
  · have hmem : MediaKind.audio ∈ mediaSections offer :=
      mem_mediaSections_of_infix offer ((strstr_isSome_iff offer m_audio).mp hinc)
    have hans : mediaSections (header ++ data ++ audio) =
        [MediaKind.application, MediaKind.audio] := by
      rw [mediaSections_append (header ++ data) audio (Or.inr hma),
        mediaSections_append header data (Or.inr hmd), h0, hsa, hsd]
      rfl
    refine ⟨header ++ data ++ audio, by rw [hsplit, if_pos hinc], ?_, ?_, ?_, ?_⟩
    · rw [hans]; decide
    · intro _; exact hans
    · intro hn; exact absurd hmem hn
    · rw [hans]
      constructor
      · intro h; exact Or.inr h.symm
      · rintro (h | h)
        · rw [h] at hmem
          exact absurd hmem (by decide)
        · exact h.symm
  · have hmem : ¬ MediaKind.audio ∈ mediaSections offer := fun h =>
      hinc ((strstr_isSome_iff offer m_audio).mpr (infix_of_mem_mediaSections offer h))
    have hans : mediaSections (header ++ data) = [MediaKind.application] := by
      rw [mediaSections_append header data (Or.inr hmd), h0, hsd]
      rfl
    refine ⟨header ++ data, by rw [hsplit, if_neg hinc], ?_, ?_, ?_, ?_⟩
    · rw [hans]; decide
    · intro h; exact absurd h hmem
    · intro _; exact hans
    · rw [hans]
      constructor
      · intro h; exact Or.inl h.symm
      · rintro (h | h)
        · exact h.symm
        · rw [h] at hmem
          exact absurd (by decide) hmem

theorem create_answer_sections_witness :
    mediaSections (exHeader ++ exAudio ++ exData) =
      [MediaKind.audio, MediaKind.application] ∧
    mediaSections exOfferDataAudio = [MediaKind.application, MediaKind.audio] ∧
    ∃ answer, create_answer exOfferDataAudio (exHeader ++ exAudio ++ exData) = some answer ∧
      MediaKind.application ∈ mediaSections answer ∧
      (MediaKind.audio ∈ mediaSections exOfferDataAudio →
        mediaSections answer = [MediaKind.application, MediaKind.audio]) ∧
      (¬ MediaKind.audio ∈ mediaSections exOfferDataAudio →
        mediaSections answer = [MediaKind.application]) ∧
      (mediaSections answer = mediaSections exOfferDataAudio ↔
        (mediaSections exOfferDataAudio = [MediaKind.application] ∨
         mediaSections exOfferDataAudio = [MediaKind.application, MediaKind.audio])) :=
  ⟨by decide, by decide,
   create_answer_sections exOfferDataAudio exHeader exAudio exData
    exLocal_audio_first exLocal_data_first (by decide)⟩

/-! ## The rendezvous step: the claims -/

/-- C4: for the subscriber and for the publisher, a candidate submitted while
the pending-candidate slot is occupied ends in the failed assertion, before
any event and without a state to return, so the stored candidate is not
overwritten; a call that returns found the slot empty; and with the slot
empty the assertion does not fail: the publisher call returns, and the
subscriber call returns whenever no offer is pending or the answer can be
synthesized from the cached local description. -/
theorem single_pending_candidate (state : PeerConnectionState) (sub : SubState)
    (pub : PubState) (description : Str) :
    (∀ pending, sub.g_ice_candidate_buffer = some pending →
      lk_sub_add_ice_candidate state sub description = ⟨[], .error Fatal.assert_failed⟩) ∧
    (∀ pending, pub.g_ice_candidate_buffer = some pending →
      lk_pub_add_ice_candidate state pub description = ⟨[], .error Fatal.assert_failed⟩) ∧
    (∀ sub', (lk_sub_add_ice_candidate state sub description).result = .ok sub' →
      sub.g_ice_candidate_buffer = none) ∧
    (∀ pub', (lk_pub_add_ice_candidate state pub description).result = .ok pub' →
      pub.g_ice_candidate_buffer = none) ∧
    (sub.g_ice_candidate_buffer = none →
      (lk_sub_add_ice_candidate state sub description).result ≠ .error Fatal.assert_failed ∧
      (sub.g_offer_buffer = none →
        ∃ sub', (lk_sub_add_ice_candidate state sub description).result = .ok sub') ∧
      (∀ offer local_description answer, sub.g_offer_buffer = some offer →
        sub.g_local_description = some local_description →
        create_answer offer local_description = some answer →
        ∃ sub', (lk_sub_add_ice_candidate state sub description).result = .ok sub')) ∧
    (pub.g_ice_candidate_buffer = none →
      ∃ pub', (lk_pub_add_ice_candidate state pub description).result = .ok pub') := by
  refine ⟨?_, ?_, ?_, ?_, ?_, ?_⟩
  · intro pending h
    simp [lk_sub_add_ice_candidate, h]
  · intro pending h
    simp [lk_pub_add_ice_candidate, h]
  · intro sub' h
    cases hc : sub.g_ice_candidate_buffer with
    | none => rfl
    | some pending => simp [lk_sub_add_ice_candidate, hc] at h
  · intro pub' h
    cases hc : pub.g_ice_candidate_buffer with
    | none => rfl
    | some pending => simp [lk_pub_add_ice_candidate, hc] at h
  · intro hc
    refine ⟨?_, ?_, ?_⟩
    · cases ho : sub.g_offer_buffer with
      | none => simp [lk_sub_add_ice_candidate, hc, lk_sub.process_signaling_values, ho]
      | some offer =>
        cases hl : sub.g_local_description with
        | none =>
          by_cases hst : state = PEER_CONNECTION_COMPLETED <;>
            simp [lk_sub_add_ice_candidate, hc, lk_sub.process_signaling_values, ho,
              lk_sub.apply_offer, hl, hst]
        | some local_description =>
          cases ha : create_answer offer local_description <;>
          by_cases hst : state = PEER_CONNECTION_COMPLETED <;>
            simp [lk_sub_add_ice_candidate, hc, lk_sub.process_signaling_values, ho,
              lk_sub.apply_offer, hl, ha, hst]
    · intro ho
      simp [lk_sub_add_ice_candidate, hc, lk_sub.process_signaling_values, ho]
    · intro offer local_description answer ho hl ha
      by_cases hst : state = PEER_CONNECTION_COMPLETED <;>
        simp [lk_sub_add_ice_candidate, hc, lk_sub.process_signaling_values, ho,
          lk_sub.apply_offer, hl, ha, hst]
  · intro hc
    cases ho : pub.g_answer_buffer with
    | none => simp [lk_pub_add_ice_candidate, hc, lk_pub.process_signaling_values, ho]
    | some answer =>
      by_cases hst : state = PEER_CONNECTION_COMPLETED <;>
        simp [lk_pub_add_ice_candidate, hc, lk_pub.process_signaling_values, ho,
          lk_pub.apply_answer, hst]

theorem single_pending_candidate_witness :
    lk_sub_add_ice_candidate PEER_CONNECTION_CHECKING
      ⟨none, some exCandidateA, some exLocal⟩ exCandidateB
      = ⟨[], .error Fatal.assert_failed⟩ ∧
    lk_pub_add_ice_candidate PEER_CONNECTION_CHECKING
      ⟨some exLocal, none, some exCandidateA⟩ exCandidateB
      = ⟨[], .error Fatal.assert_failed⟩ :=
  ⟨(single_pending_candidate PEER_CONNECTION_CHECKING
      ⟨none, some exCandidateA, some exLocal⟩ ⟨some exLocal, none, some exCandidateA⟩
      exCandidateB).1 exCandidateA rfl,
   (single_pending_candidate PEER_CONNECTION_CHECKING
      ⟨none, some exCandidateA, some exLocal⟩ ⟨some exLocal, none, some exCandidateA⟩
      exCandidateB).2.1 exCandidateA rfl⟩

/-- C5: a subscriber with both slots empty gets candidate A and then offer
O1, the engine not being Connected when the offer comes. The candidate step
produces no event and holds A. The offer step makes exactly the engine calls
add candidate A, then set remote description O1, and hands one message of
type "answer" to the signal callback, the answer synthesized from O1 and the
cached local description; the dispatcher sends it as one Answer request.
Afterwards both slots are empty. -/
theorem rendezvous_candidate_then_offer (stateA stateO : PeerConnectionState)
    (local_description A O1 answer : Str)
    (hstate : stateO ≠ PEER_CONNECTION_COMPLETED)
    (hanswer : create_answer O1 local_description = some answer) :
    lk_sub_add_ice_candidate stateA ⟨none, none, some local_description⟩ A
      = ⟨[], .ok ⟨none, some A, some local_description⟩⟩ ∧
    lk_sub_set_remote_description stateO ⟨none, some A, some local_description⟩ O1
      = ⟨[Event.peer_connection_add_ice_candidate A,
          Event.peer_connection_set_remote_description O1,
          Event.g_signal_cb "answer".toList answer],
         .ok ⟨none, none, some local_description⟩⟩ ∧
    (∀ send, (sub_session_event send (Event.g_signal_cb "answer".toList answer)).actions
      = [Action.esp_websocket_client_send_bin
          (LIVEKIT__SIGNAL_REQUEST__MESSAGE_ANSWER "answer".toList answer)]) := by
  refine ⟨?_, ?_, ?_⟩
  · simp [lk_sub_add_ice_candidate, lk_sub.process_signaling_values]
  · simp [lk_sub_set_remote_description, lk_sub.process_signaling_values, hstate,
      lk_sub.apply_offer, hanswer, SDP_TYPE_ANSWER]
  · intro send
    simp [sub_session_event, on_sub_signal, lk_pack_and_send_signal_request]

theorem rendezvous_candidate_then_offer_witness :
    create_answer exOfferDataAudio exLocal = some (exHeader ++ exData ++ exAudio) ∧
    lk_sub_add_ice_candidate PEER_CONNECTION_NEW ⟨none, none, some exLocal⟩ exCandidateA
      = ⟨[], .ok ⟨none, some exCandidateA, some exLocal⟩⟩ ∧
    lk_sub_set_remote_description PEER_CONNECTION_CHECKING
        ⟨none, some exCandidateA, some exLocal⟩ exOfferDataAudio
      = ⟨[Event.peer_connection_add_ice_candidate exCandidateA,
          Event.peer_connection_set_remote_description exOfferDataAudio,
          Event.g_signal_cb "answer".toList (exHeader ++ exData ++ exAudio)],
         .ok ⟨none, none, some exLocal⟩⟩ ∧
    (∀ send, (sub_session_event send
        (Event.g_signal_cb "answer".toList (exHeader ++ exData ++ exAudio))).actions
      = [Action.esp_websocket_client_send_bin
          (LIVEKIT__SIGNAL_REQUEST__MESSAGE_ANSWER "answer".toList
            (exHeader ++ exData ++ exAudio))]) :=
  ⟨by decide,
   rendezvous_candidate_then_offer PEER_CONNECTION_NEW PEER_CONNECTION_CHECKING
    exLocal exCandidateA exOfferDataAudio (exHeader ++ exData ++ exAudio)
    (by decide) (by decide)⟩

/-- C6: for the subscriber and for the publisher, in every connection state,
a candidate submitted while no remote description is pending produces no
event: no engine call and no message for the dispatcher. The submitted
candidate, accepted because the candidate slot was empty, is held in the
slot and nothing else of the session changes. -/
theorem candidate_alone_is_held (state : PeerConnectionState) (sub : SubState)
    (pub : PubState) (description : Str)
    (hsub : sub.g_offer_buffer = none) (hpub : pub.g_answer_buffer = none) :
    (lk_sub_add_ice_candidate state sub description).events = [] ∧
    (lk_pub_add_ice_candidate state pub description).events = [] ∧
    (sub.g_ice_candidate_buffer = none →
      lk_sub_add_ice_candidate state sub description
        = ⟨[], .ok { sub with g_ice_candidate_buffer := some description }⟩) ∧
    (pub.g_ice_candidate_buffer = none →
      lk_pub_add_ice_candidate state pub description
        = ⟨[], .ok { pub with g_ice_candidate_buffer := some description }⟩) := by
  refine ⟨?_, ?_, ?_, ?_⟩
  · cases hc : sub.g_ice_candidate_buffer <;>
      simp [lk_sub_add_ice_candidate, hc, lk_sub.process_signaling_values, hsub]
  · cases hc : pub.g_ice_candidate_buffer <;>
      simp [lk_pub_add_ice_candidate, hc, lk_pub.process_signaling_values, hpub]
  · intro hc
    simp [lk_sub_add_ice_candidate, hc, lk_sub.process_signaling_values, hsub]
  · intro hc
    simp [lk_pub_add_ice_candidate, hc, lk_pub.process_signaling_values, hpub]

theorem candidate_alone_is_held_witness :
    lk_sub_add_ice_candidate PEER_CONNECTION_COMPLETED ⟨none, none, some exLocal⟩ exCandidateA
      = ⟨[], .ok ⟨none, some exCandidateA, some exLocal⟩⟩ ∧
    lk_pub_add_ice_candidate PEER_CONNECTION_COMPLETED ⟨some exLocal, none, none⟩ exCandidateA
      = ⟨[], .ok ⟨some exLocal, none, some exCandidateA⟩⟩ :=
  ⟨(candidate_alone_is_held PEER_CONNECTION_COMPLETED ⟨none, none, some exLocal⟩
      ⟨some exLocal, none, none⟩ exCandidateA rfl rfl).2.2.1 rfl,
   (candidate_alone_is_held PEER_CONNECTION_COMPLETED ⟨none, none, some exLocal⟩
      ⟨some exLocal, none, none⟩ exCandidateA rfl rfl).2.2.2 rfl⟩

/-- C7: for the subscriber and for the publisher, when the engine is not
Connected and no candidate is pending, a submitted remote description
produces no event, so no engine call and no answer, and is held in the
pending-description slot, the rest of the session unchanged. A renegotiation
request leaves it there. It is applied when a candidate is then submitted
with the engine still not Connected: candidate first, description second,
in one step, which empties both slots. -/
theorem description_alone_is_deferred (state state' : PeerConnectionState)
    (sub : SubState) (pub : PubState) (sdp candidate : Str)
    (hstate : state ≠ PEER_CONNECTION_COMPLETED)
    (hstate' : state' ≠ PEER_CONNECTION_COMPLETED)
    (hsub : sub.g_ice_candidate_buffer = none)
    (hpub : pub.g_ice_candidate_buffer = none) :
    lk_sub_set_remote_description state sub sdp
      = ⟨[], .ok { sub with g_offer_buffer := some sdp }⟩ ∧
    lk_pub_set_remote_description state pub sdp
      = ⟨[], .ok { pub with g_answer_buffer := some sdp }⟩ ∧
    (lk_pub_reoffer { pub with g_answer_buffer := some sdp }).result
      = .ok { pub with g_answer_buffer := some sdp } ∧
    lk_pub_add_ice_candidate state' { pub with g_answer_buffer := some sdp } candidate
      = ⟨[Event.peer_connection_add_ice_candidate candidate,
          Event.peer_connection_set_remote_description sdp],
         .ok { pub with g_answer_buffer := none, g_ice_candidate_buffer := none }⟩ ∧
    (∀ local_description answer, sub.g_local_description = some local_description →
      create_answer sdp local_description = some answer →
      lk_sub_add_ice_candidate state' { sub with g_offer_buffer := some sdp } candidate
        = ⟨[Event.peer_connection_add_ice_candidate candidate,
            Event.peer_connection_set_remote_description sdp,
            Event.g_signal_cb "answer".toList answer],
           .ok { sub with g_offer_buffer := none, g_ice_candidate_buffer := none }⟩) := by
  refine ⟨?_, ?_, ?_, ?_, ?_⟩
  · simp [lk_sub_set_remote_description, lk_sub.process_signaling_values, hstate, hsub]
  · simp [lk_pub_set_remote_description, lk_pub.process_signaling_values, hstate, hpub]
  · rfl
  · simp [lk_pub_add_ice_candidate, lk_pub.process_signaling_values, hstate', hpub,
      lk_pub.apply_answer]
  · intro local_description answer hl ha
    simp [lk_sub_add_ice_candidate, lk_sub.process_signaling_values, hstate', hsub,
      lk_sub.apply_offer, hl, ha, SDP_TYPE_ANSWER]

theorem description_alone_is_deferred_witness :
    lk_sub_set_remote_description PEER_CONNECTION_NEW ⟨none, none, some exLocal⟩
        exOfferDataAudio
      = ⟨[], .ok ⟨some exOfferDataAudio, none, some exLocal⟩⟩ ∧
    lk_pub_set_remote_description PEER_CONNECTION_NEW ⟨some exLocal, none, none⟩
        exOfferDataAudio
      = ⟨[], .ok ⟨some exLocal, some exOfferDataAudio, none⟩⟩ ∧
    lk_sub_add_ice_candidate PEER_CONNECTION_CHECKING
        ⟨some exOfferDataAudio, none, some exLocal⟩ exCandidateA
      = ⟨[Event.peer_connection_add_ice_candidate exCandidateA,
          Event.peer_connection_set_remote_description exOfferDataAudio,
          Event.g_signal_cb "answer".toList (exHeader ++ exData ++ exAudio)],
         .ok ⟨none, none, some exLocal⟩⟩ :=
  ⟨(description_alone_is_deferred PEER_CONNECTION_NEW PEER_CONNECTION_CHECKING
      ⟨none, none, some exLocal⟩ ⟨some exLocal, none, none⟩ exOfferDataAudio exCandidateA
      (by decide) (by decide) rfl rfl).1,
   (description_alone_is_deferred PEER_CONNECTION_NEW PEER_CONNECTION_CHECKING
      ⟨none, none, some exLocal⟩ ⟨some exLocal, none, none⟩ exOfferDataAudio exCandidateA
      (by decide) (by decide) rfl rfl).2.1,
   (description_alone_is_deferred PEER_CONNECTION_NEW PEER_CONNECTION_CHECKING
      ⟨none, none, some exLocal⟩ ⟨some exLocal, none, none⟩ exOfferDataAudio exCandidateA
      (by decide) (by decide) rfl rfl).2.2.2.2 exLocal (exHeader ++ exData ++ exAudio)
      rfl (by decide)⟩

/-- C8, refuted as stated: with the engine Connected, a description pending
and a candidate pending, the rendezvous step of the publisher, and that of
the subscriber, applies the description only: the engine gets no candidate
and the candidate stays in its slot. -/
theorem connected_candidate_counterexample :
    lk_pub.process_signaling_values PEER_CONNECTION_COMPLETED
        ⟨some exLocal, some exOfferData, some exCandidateA⟩
      = ⟨[Event.peer_connection_set_remote_description exOfferData],
         .ok ⟨some exLocal, none, some exCandidateA⟩⟩ ∧
    lk_sub.process_signaling_values PEER_CONNECTION_COMPLETED
        ⟨some exOfferData, some exCandidateA, some exLocal⟩
      = ⟨[Event.peer_connection_set_remote_description exOfferData,
          Event.g_signal_cb "answer".toList (exHeader ++ exData)],
         .ok ⟨none, some exCandidateA, some exLocal⟩⟩ := by
  constructor
  · rfl
  · have h : create_answer exOfferData exLocal = some (exHeader ++ exData) := by decide
    simp [lk_sub.process_signaling_values, lk_sub.apply_offer, h, SDP_TYPE_ANSWER]

/-- C8, amended: for the subscriber and for the publisher, when the engine is
Connected and a remote description is pending, the rendezvous step proceeds
without requiring a candidate: it applies the pending description to the
engine and clears its slot, the subscriber then handing the synthesized
answer to the signal callback. It makes no other engine call, and the
candidate slot is left as it was, empty or not. -/
theorem connected_rendezvous (sub : SubState) (pub : PubState)
    (offer local_description answer sdp : Str)
    (hoffer : sub.g_offer_buffer = some offer)
    (hlocal : sub.g_local_description = some local_description)
    (hanswer : create_answer offer local_description = some answer)
    (hsdp : pub.g_answer_buffer = some sdp) :
    lk_sub.process_signaling_values PEER_CONNECTION_COMPLETED sub
      = ⟨[Event.peer_connection_set_remote_description offer,
          Event.g_signal_cb "answer".toList answer],
         .ok { sub with g_offer_buffer := none }⟩ ∧
    lk_pub.process_signaling_values PEER_CONNECTION_COMPLETED pub
      = ⟨[Event.peer_connection_set_remote_description sdp],
         .ok { pub with g_answer_buffer := none }⟩ := by
  constructor
  · simp [lk_sub.process_signaling_values, hoffer, lk_sub.apply_offer, hlocal, hanswer,
      SDP_TYPE_ANSWER]
  · simp [lk_pub.process_signaling_values, hsdp, lk_pub.apply_answer]

theorem connected_rendezvous_witness :
    create_answer exOfferDataAudio exLocal = some (exHeader ++ exData ++ exAudio) ∧
    lk_sub.process_signaling_values PEER_CONNECTION_COMPLETED
        ⟨some exOfferDataAudio, none, some exLocal⟩
      = ⟨[Event.peer_connection_set_remote_description exOfferDataAudio,
          Event.g_signal_cb "answer".toList (exHeader ++ exData ++ exAudio)],
         .ok ⟨none, none, some exLocal⟩⟩ ∧
    lk_pub.process_signaling_values PEER_CONNECTION_COMPLETED
        ⟨some exLocal, some exOfferData, some exCandidateB⟩
      = ⟨[Event.peer_connection_set_remote_description exOfferData],
         .ok ⟨some exLocal, none, some exCandidateB⟩⟩ :=
  ⟨by decide,
   connected_rendezvous ⟨some exOfferDataAudio, none, some exLocal⟩
    ⟨some exLocal, some exOfferData, some exCandidateB⟩
    exOfferDataAudio exLocal (exHeader ++ exData ++ exAudio) exOfferData
    rfl rfl (by decide) rfl⟩

/-! ## The dispatcher: the claims -/

/-- C9: a trickle envelope whose candidate payload contains `tcp`, and a
trickle envelope whose payload contains no `.`, make
`handle_livekit_response` return without any action, whatever the target
and whatever the JSON library would find in the payload: the candidate is
forwarded neither to the subscriber nor to the publisher. -/
theorem filtered_candidates_are_not_forwarded {J : Type} (json : cJSON_Lib J)
    (candidateinit : Str) (target : Livekit__SignalTarget)
    (hfilter : "tcp".toList <:+: candidateinit ∨ ¬ '.' ∈ candidateinit) :
    handle_livekit_response json
        (LIVEKIT__SIGNAL_RESPONSE__MESSAGE_TRICKLE candidateinit target) = ⟨[], none⟩ ∧
    ∀ description,
      ¬ Action.lk_sub_add_ice_candidate description ∈
        (handle_livekit_response json
          (LIVEKIT__SIGNAL_RESPONSE__MESSAGE_TRICKLE candidateinit target)).actions ∧
      ¬ Action.lk_pub_add_ice_candidate description ∈
        (handle_livekit_response json
          (LIVEKIT__SIGNAL_RESPONSE__MESSAGE_TRICKLE candidateinit target)).actions := by
  have key : handle_livekit_response json
      (LIVEKIT__SIGNAL_RESPONSE__MESSAGE_TRICKLE candidateinit target) = ⟨[], none⟩ := by
    rcases hfilter with htcp | hdot
    · have h := (strstr_isSome_iff candidateinit "tcp".toList).mpr htcp
      simp only [handle_livekit_response]
      rw [if_pos h]
    · have h := (strchr_isNone_iff candidateinit '.').mpr hdot
      simp only [handle_livekit_response]
      by_cases h1 : (strstr candidateinit "tcp".toList).isSome = true
      · rw [if_pos h1]
      · rw [if_neg h1, if_pos h]
  refine ⟨key, ?_⟩
  intro description
  rw [key]
  simp

theorem filtered_candidates_are_not_forwarded_witness :
    ("tcp".toList <:+: exPayloadTcp ∧
      handle_livekit_response exJson
        (LIVEKIT__SIGNAL_RESPONSE__MESSAGE_TRICKLE exPayloadTcp
          LIVEKIT__SIGNAL_TARGET__SUBSCRIBER) = ⟨[], none⟩) ∧
    (¬ '.' ∈ exPayloadIpv6 ∧
      handle_livekit_response exJson
        (LIVEKIT__SIGNAL_RESPONSE__MESSAGE_TRICKLE exPayloadIpv6
          LIVEKIT__SIGNAL_TARGET__PUBLISHER) = ⟨[], none⟩) :=
  ⟨⟨(strstr_isSome_iff _ _).mp (by decide),
    (filtered_candidates_are_not_forwarded exJson exPayloadTcp
      LIVEKIT__SIGNAL_TARGET__SUBSCRIBER
      (Or.inl ((strstr_isSome_iff _ _).mp (by decide)))).1⟩,
   ⟨by decide,
    (filtered_candidates_are_not_forwarded exJson exPayloadIpv6
      LIVEKIT__SIGNAL_TARGET__PUBLISHER (Or.inr (by decide))).1⟩⟩

/-- Every action of `handle_livekit_response` is a call of a session
function; it writes nothing to the websocket itself. -/
theorem handle_livekit_response_no_add_track {J : Type} (json : cJSON_Lib J)
    (packet : Livekit__SignalResponse) (a : Action)
    (ha : a ∈ (handle_livekit_response json packet).actions) : a.isAddTrack = false := by
  cases packet with
  | LIVEKIT__SIGNAL_RESPONSE__MESSAGE_TRICKLE candidateinit target =>
    simp only [handle_livekit_response] at ha
    repeat' split at ha
    all_goals simp at ha
    all_goals subst ha
    all_goals rfl
  | _ =>
    simp [handle_livekit_response] at ha
    try (subst ha; rfl)

/-- C10: `on_sub_state` sends exactly one AddTrack request, with correlation
id and name "microphone" and source microphone, when the reported state is
Connected, and performs no action at all when it is any other state. No
other function of the dispatcher sends an AddTrack request: not
`on_pub_state`, not the signal callbacks, not `handle_livekit_response`, not
`event_handler`. With the callbacks wired as `lk_websocket` wires them, an
event of the Subscriber Session leads to an AddTrack request exactly when it
is the report of the state Connected, and no event of the Publisher Session
does. -/
theorem add_track_iff_subscriber_connected {J : Type}
    (send : Livekit__SignalRequest → Int) (json : cJSON_Lib J)
    (unpack : List Nat → Option Livekit__SignalResponse) :
    (on_sub_state send PEER_CONNECTION_COMPLETED).actions =
      [Action.esp_websocket_client_send_bin
        (LIVEKIT__SIGNAL_REQUEST__MESSAGE_ADD_TRACK "microphone".toList
          "microphone".toList LIVEKIT__TRACK_SOURCE__MICROPHONE)] ∧
    (∀ state, state ≠ PEER_CONNECTION_COMPLETED → (on_sub_state send state).actions = []) ∧
    (∀ state a, a ∈ (on_pub_state state).actions → a.isAddTrack = false) ∧
    (∀ type sdp a, a ∈ (on_sub_signal send type sdp).actions → a.isAddTrack = false) ∧
    (∀ type sdp a, a ∈ (on_pub_signal send type sdp).actions → a.isAddTrack = false) ∧
    (∀ packet a, a ∈ (handle_livekit_response json packet).actions →
      a.isAddTrack = false) ∧
    (∀ event_id data a, a ∈ (event_handler json unpack event_id data).actions →
      a.isAddTrack = false) ∧
    (∀ e, (∃ a, a ∈ (sub_session_event send e).actions ∧ a.isAddTrack = true) ↔
      e = Event.g_state_cb PEER_CONNECTION_COMPLETED) ∧
    (∀ e a, a ∈ (pub_session_event send e).actions → a.isAddTrack = false) := by
  have hsub_other : ∀ state, state ≠ PEER_CONNECTION_COMPLETED →
      (on_sub_state send state).actions = [] := by
    intro state hs
    by_cases hd : state = PEER_CONNECTION_DISCONNECTED <;> simp [on_sub_state, hs, hd]
  have hpub_state : ∀ state a, a ∈ (on_pub_state state).actions → a.isAddTrack = false := by
    intro state a ha
    by_cases hd : state = PEER_CONNECTION_DISCONNECTED <;> simp [on_pub_state, hd] at ha
  have hsub_signal : ∀ type sdp a, a ∈ (on_sub_signal send type sdp).actions →
      a.isAddTrack = false := by
    intro type sdp a ha
    by_cases ht : type = "answer".toList
    · simp [on_sub_signal, ht, lk_pack_and_send_signal_request] at ha
      subst ha; rfl
    · simp only [on_sub_signal, if_neg ht] at ha
      simp at ha
  have hpub_signal : ∀ type sdp a, a ∈ (on_pub_signal send type sdp).actions →
      a.isAddTrack = false := by
    intro type sdp a ha
    by_cases ht : type = "offer".toList
    · simp [on_pub_signal, ht, lk_pack_and_send_signal_request] at ha
      subst ha; rfl
    · simp only [on_pub_signal, if_neg ht] at ha
      simp at ha
  refine ⟨rfl, hsub_other, hpub_state, hsub_signal, hpub_signal,
    fun packet a ha => handle_livekit_response_no_add_track json packet a ha, ?_, ?_, ?_⟩
  · intro event_id data a ha
    cases event_id with
    | WEBSOCKET_EVENT_DATA =>
      simp only [event_handler] at ha
      split at ha
      · simp at ha
      · split at ha
        · simp at ha
        · exact handle_livekit_response_no_add_track json _ a ha
    | _ => simp [event_handler] at ha
  · intro e
    constructor
    · rintro ⟨a, ha, hadd⟩
      cases e with
      | g_state_cb state =>
        by_cases hs : state = PEER_CONNECTION_COMPLETED
        · rw [hs]
        · simp only [sub_session_event, hsub_other state hs] at ha
          simp at ha
      | g_signal_cb type message =>
        have := hsub_signal type message a ha
        rw [this] at hadd
        exact absurd hadd (by decide)
      | _ => simp [sub_session_event] at ha
    · intro he
      subst he
      exact ⟨_, List.mem_singleton.mpr rfl, rfl⟩
  · intro e a ha
    cases e with
    | g_state_cb state => exact hpub_state state a ha
    | g_signal_cb type message => exact hpub_signal type message a ha
    | _ => simp [pub_session_event] at ha

theorem add_track_iff_subscriber_connected_witness :
    (on_sub_state exSend PEER_CONNECTION_CHECKING).actions = [] ∧
    (∃ a, a ∈ (sub_session_event exSend
        (Event.g_state_cb PEER_CONNECTION_COMPLETED)).actions ∧ a.isAddTrack = true) :=
  ⟨(add_track_iff_subscriber_connected exSend exJson (fun _ => none)).2.1
      PEER_CONNECTION_CHECKING (by decide),
   ((add_track_iff_subscriber_connected exSend exJson (fun _ => none)).2.2.2.2.2.2.2.1
      (Event.g_state_cb PEER_CONNECTION_COMPLETED)).mpr rfl⟩

/-- C11: on a TrackPublished response `handle_livekit_response` performs one
action, the call of `lk_pub_reoffer`, which is no call of the Subscriber
Session; and `lk_pub_reoffer` makes one engine call, the creation of a local
offer, and leaves the state of the Publisher Session as it was. -/
theorem track_published_triggers_one_reoffer {J : Type} (json : cJSON_Lib J)
    (pub : PubState) :
    handle_livekit_response json LIVEKIT__SIGNAL_RESPONSE__MESSAGE_TRACK_PUBLISHED
      = ⟨[Action.lk_pub_reoffer], none⟩ ∧
    (∀ a, a ∈ (handle_livekit_response json
        LIVEKIT__SIGNAL_RESPONSE__MESSAGE_TRACK_PUBLISHED).actions →
      a.isSubscriberCall = false) ∧
    lk_pub_reoffer pub = ⟨[Event.peer_connection_create_offer], .ok pub⟩ := by
  refine ⟨rfl, ?_, rfl⟩
  intro a ha
  simp [handle_livekit_response] at ha
  subst ha
  rfl

/-- C12: on an Offer envelope `handle_livekit_response` performs one action,
the call of `lk_sub_set_remote_description` with the sdp of the offer, which
is no call of the Publisher Session; on an Answer envelope it performs one
action, the call of `lk_pub_set_remote_description` with the sdp of the
answer, which is no call of the Subscriber Session. -/
theorem descriptions_are_routed {J : Type} (json : cJSON_Lib J) (sdp : Str) :
    handle_livekit_response json (LIVEKIT__SIGNAL_RESPONSE__MESSAGE_OFFER sdp)
      = ⟨[Action.lk_sub_set_remote_description sdp], none⟩ ∧
    (∀ a, a ∈ (handle_livekit_response json
        (LIVEKIT__SIGNAL_RESPONSE__MESSAGE_OFFER sdp)).actions →
      a.isPublisherCall = false) ∧
    handle_livekit_response json (LIVEKIT__SIGNAL_RESPONSE__MESSAGE_ANSWER sdp)
      = ⟨[Action.lk_pub_set_remote_description sdp], none⟩ ∧
    (∀ a, a ∈ (handle_livekit_response json
        (LIVEKIT__SIGNAL_RESPONSE__MESSAGE_ANSWER sdp)).actions →
      a.isSubscriberCall = false) := by
  refine ⟨rfl, ?_, rfl, ?_⟩
  · intro a ha
    simp [handle_livekit_response] at ha
    subst ha
    rfl
  · intro a ha
    simp [handle_livekit_response] at ha
    subst ha
    rfl

/-- C13: a trickle envelope whose payload does not contain `tcp` and does
contain a `.`, and which the JSON library parses to an item that has a string item
under the name `candidate`, makes `handle_livekit_response` perform one
action: the call of `lk_sub_add_ice_candidate` with the value of that string
when the target is the subscriber, and the call of
`lk_pub_add_ice_candidate` with it when the target is the publisher. -/
theorem candidate_is_routed_by_target {J : Type} (json : cJSON_Lib J)
    (candidateinit : Str) (target : Livekit__SignalTarget) (parsed candidate_obj : J)
    (htcp : ¬ "tcp".toList <:+: candidateinit) (hdot : '.' ∈ candidateinit)
    (hparse : json.cJSON_Parse candidateinit = some parsed)
    (hitem : json.cJSON_GetObjectItem parsed "candidate".toList = some candidate_obj)
    (hstring : json.cJSON_IsString candidate_obj = true) :
    (target = LIVEKIT__SIGNAL_TARGET__SUBSCRIBER →
      handle_livekit_response json
          (LIVEKIT__SIGNAL_RESPONSE__MESSAGE_TRICKLE candidateinit target)
        = ⟨[Action.lk_sub_add_ice_candidate (json.valuestring candidate_obj)], none⟩) ∧
    (target = LIVEKIT__SIGNAL_TARGET__PUBLISHER →
      handle_livekit_response json
          (LIVEKIT__SIGNAL_RESPONSE__MESSAGE_TRICKLE candidateinit target)
        = ⟨[Action.lk_pub_add_ice_candidate (json.valuestring candidate_obj)], none⟩) := by
  have h1 : ¬ (strstr candidateinit "tcp".toList).isSome = true :=
    fun h => htcp ((strstr_isSome_iff candidateinit "tcp".toList).mp h)
  have h2 : ¬ (strchr candidateinit '.').isNone = true :=
    fun h => (strchr_isNone_iff candidateinit '.').mp h hdot
  constructor
  · intro ht
    simp only [handle_livekit_response]
    rw [if_neg h1, if_neg h2]
    simp only [hparse, hitem]
    rw [if_pos hstring, if_pos ht]
  · intro ht
    have ht' : ¬ target = LIVEKIT__SIGNAL_TARGET__SUBSCRIBER := by
      rw [ht]; decide
    simp only [handle_livekit_response]
    rw [if_neg h1, if_neg h2]
    simp only [hparse, hitem]
    rw [if_pos hstring, if_neg ht']

theorem candidate_is_routed_by_target_witness :
    (¬ "tcp".toList <:+: exPayloadUdp ∧ '.' ∈ exPayloadUdp) ∧
    handle_livekit_response exJson
        (LIVEKIT__SIGNAL_RESPONSE__MESSAGE_TRICKLE exPayloadUdp
          LIVEKIT__SIGNAL_TARGET__SUBSCRIBER)
      = ⟨[Action.lk_sub_add_ice_candidate exPayloadUdp], none⟩ ∧
    handle_livekit_response exJson
        (LIVEKIT__SIGNAL_RESPONSE__MESSAGE_TRICKLE exPayloadUdp
          LIVEKIT__SIGNAL_TARGET__PUBLISHER)
      = ⟨[Action.lk_pub_add_ice_candidate exPayloadUdp], none⟩ :=
  ⟨⟨fun h => absurd ((strstr_isSome_iff _ _).mpr h) (by decide), by decide⟩,
   (candidate_is_routed_by_target exJson exPayloadUdp LIVEKIT__SIGNAL_TARGET__SUBSCRIBER
      exPayloadUdp exPayloadUdp
      (fun h => absurd ((strstr_isSome_iff _ _).mpr h) (by decide)) (by decide)
      rfl rfl rfl).1 rfl,
   (candidate_is_routed_by_target exJson exPayloadUdp LIVEKIT__SIGNAL_TARGET__PUBLISHER
      exPayloadUdp exPayloadUdp
      (fun h => absurd ((strstr_isSome_iff _ _).mpr h) (by decide)) (by decide)
      rfl rfl rfl).2 rfl⟩

/-- What the rendezvous step of the publisher can do: nothing, or apply the
pending answer, after the pending candidate when the engine is not Connected;
it never calls the signal callback, and when it has applied the answer it
returns with the answer slot empty. -/
theorem lk_pub_process_signaling_values_cases (state : PeerConnectionState)
    (pub : PubState) :
    lk_pub.process_signaling_values state pub = ⟨[], .ok pub⟩ ∨
    (∃ answer, pub.g_answer_buffer = some answer ∧
      lk_pub.process_signaling_values state pub
        = ⟨[Event.peer_connection_set_remote_description answer],
           .ok { pub with g_answer_buffer := none }⟩) ∨
    (∃ answer candidate, pub.g_answer_buffer = some answer ∧
      lk_pub.process_signaling_values state pub
        = ⟨[Event.peer_connection_add_ice_candidate candidate,
            Event.peer_connection_set_remote_description answer],
           .ok { pub with g_answer_buffer := none, g_ice_candidate_buffer := none }⟩) := by
  cases ha : pub.g_answer_buffer with
  | none => left; simp [lk_pub.process_signaling_values, ha]
  | some answer =>
    by_cases hst : state = PEER_CONNECTION_COMPLETED
    · right; left
      exact ⟨answer, rfl, by
        simp [lk_pub.process_signaling_values, ha, hst, lk_pub.apply_answer]⟩
    · cases hc : pub.g_ice_candidate_buffer with
      | none => left; simp [lk_pub.process_signaling_values, ha, hst, hc]
      | some candidate =>
        right; right
        exact ⟨answer, candidate, rfl, by
          simp [lk_pub.process_signaling_values, ha, hst, hc, lk_pub.apply_answer]⟩

/-- C14: in every state of the Publisher Session and of its engine, no event
of `process_signaling_values`, of `lk_pub_set_remote_description` or of
`lk_pub_add_ice_candidate` is a call of the signal callback; and whenever one
of them applies an answer to the engine, it returns, and with the
pending-description slot empty. -/
theorem publisher_rendezvous_sends_nothing (state : PeerConnectionState)
    (pub : PubState) (sdp description : Str) :
    (∀ e, e ∈ (lk_pub.process_signaling_values state pub).events → e.isSignal = false) ∧
    (∀ e, e ∈ (lk_pub_set_remote_description state pub sdp).events →
      e.isSignal = false) ∧
    (∀ e, e ∈ (lk_pub_add_ice_candidate state pub description).events →
      e.isSignal = false) ∧
    (∀ answer, Event.peer_connection_set_remote_description answer ∈
        (lk_pub.process_signaling_values state pub).events →
      ∃ pub', (lk_pub.process_signaling_values state pub).result = .ok pub' ∧
        pub'.g_answer_buffer = none) ∧
    (∀ answer, Event.peer_connection_set_remote_description answer ∈
        (lk_pub_set_remote_description state pub sdp).events →
      ∃ pub', (lk_pub_set_remote_description state pub sdp).result = .ok pub' ∧
        pub'.g_answer_buffer = none) ∧
    (∀ answer, Event.peer_connection_set_remote_description answer ∈
        (lk_pub_add_ice_candidate state pub description).events →
      ∃ pub', (lk_pub_add_ice_candidate state pub description).result = .ok pub' ∧
        pub'.g_answer_buffer = none) := by
  have hsig : ∀ (p : PubState) e, e ∈ (lk_pub.process_signaling_values state p).events →
      e.isSignal = false := by
    intro p e he
    rcases lk_pub_process_signaling_values_cases state p with h | ⟨a, _, h⟩ | ⟨a, c, _, h⟩
    · rw [h] at he; simp at he
    · rw [h] at he
      simp at he
      subst he; rfl
    · rw [h] at he
      simp at he
      rcases he with he | he <;> subst he <;> rfl
  have hclr : ∀ (p : PubState) answer, Event.peer_connection_set_remote_description answer ∈
        (lk_pub.process_signaling_values state p).events →
      ∃ p', (lk_pub.process_signaling_values state p).result = .ok p' ∧
        p'.g_answer_buffer = none := by
    intro p answer he
    rcases lk_pub_process_signaling_values_cases state p with h | ⟨a, _, h⟩ | ⟨a, c, _, h⟩
    · rw [h] at he; simp at he
    · rw [h]; exact ⟨_, rfl, rfl⟩
    · rw [h]; exact ⟨_, rfl, rfl⟩
  refine ⟨hsig pub, hsig _, ?_, hclr pub, hclr _, ?_⟩
  · intro e he
    cases hc : pub.g_ice_candidate_buffer with
    | none =>
      simp only [lk_pub_add_ice_candidate, hc] at he
      exact hsig _ e he
    | some pending => simp [lk_pub_add_ice_candidate, hc] at he
  · intro answer he
    cases hc : pub.g_ice_candidate_buffer with
    | none =>
      simp only [lk_pub_add_ice_candidate, hc] at he ⊢
      exact hclr _ answer he
    | some pending => simp [lk_pub_add_ice_candidate, hc] at he

theorem publisher_rendezvous_sends_nothing_witness :
    Event.peer_connection_set_remote_description exOfferData ∈
      (lk_pub_set_remote_description PEER_CONNECTION_CHECKING
        ⟨some exLocal, none, some exCandidateA⟩ exOfferData).events ∧
    ∃ pub', (lk_pub_set_remote_description PEER_CONNECTION_CHECKING
        ⟨some exLocal, none, some exCandidateA⟩ exOfferData).result = .ok pub' ∧
      pub'.g_answer_buffer = none :=
  ⟨by decide,
   (publisher_rendezvous_sends_nothing PEER_CONNECTION_CHECKING
      ⟨some exLocal, none, some exCandidateA⟩ exOfferData exCandidateB).2.2.2.2.1
      exOfferData (by decide)⟩

/-! ## Audio capture: the claims -/

/-- The number of bytes that `lk_capture_audio` requests from the hardware
while less than a frame is captured. -/
theorem bytes_to_read_eq (captured : Nat) (h : captured < EXAMPLE_BUFFER_SIZE) :
    (EXAMPLE_BUFFER_SIZE + size_t_modulus - captured) % size_t_modulus
      = EXAMPLE_BUFFER_SIZE - captured := by
  have hB : EXAMPLE_BUFFER_SIZE = 1280 := by decide
  have hM : size_t_modulus = 4294967296 := by decide
  rw [hB] at h
  rw [hB, hM]
  omega

/-- The result of `lk_capture_audio` when the read falls short of the bytes
requested. -/
theorem lk_capture_audio_partial (i2s_channel_read : Nat → List Nat) (m : MediaState)
    (hacc : m.bytes_captured < EXAMPLE_BUFFER_SIZE)
    (hshort : (i2s_channel_read (EXAMPLE_BUFFER_SIZE - m.bytes_captured)).length
      < EXAMPLE_BUFFER_SIZE - m.bytes_captured) :
    (lk_capture_audio i2s_channel_read m).1 = none ∧
    (lk_capture_audio i2s_channel_read m).2.bytes_captured = m.bytes_captured +
      (i2s_channel_read (EXAMPLE_BUFFER_SIZE - m.bytes_captured)).length := by
  have hB : EXAMPLE_BUFFER_SIZE = 1280 := by decide
  have hM : size_t_modulus = 4294967296 := by decide
  have hreq := bytes_to_read_eq m.bytes_captured hacc
  simp only [lk_capture_audio, hreq, if_pos hshort, true_and]
  rw [hB] at hacc hshort
  rw [hM, hB]
  omega

/-- The result of `lk_capture_audio` when the read delivers the bytes
requested. -/
theorem lk_capture_audio_full (i2s_channel_read : Nat → List Nat) (m : MediaState)
    (hacc : m.bytes_captured < EXAMPLE_BUFFER_SIZE)
    (hfull : (i2s_channel_read (EXAMPLE_BUFFER_SIZE - m.bytes_captured)).length
      = EXAMPLE_BUFFER_SIZE - m.bytes_captured) :
    (∃ frame, (lk_capture_audio i2s_channel_read m).1 = some (frame, EXAMPLE_BUFFER_SIZE)) ∧
    (lk_capture_audio i2s_channel_read m).2.bytes_captured = 0 := by
  have hB : EXAMPLE_BUFFER_SIZE = 1280 := by decide
  have hM : size_t_modulus = 4294967296 := by decide
  have hreq := bytes_to_read_eq m.bytes_captured hacc
  have hnot : ¬ (i2s_channel_read (EXAMPLE_BUFFER_SIZE - m.bytes_captured)).length
      < EXAMPLE_BUFFER_SIZE - m.bytes_captured := by omega
  have hsum : (m.bytes_captured +
      (i2s_channel_read (EXAMPLE_BUFFER_SIZE - m.bytes_captured)).length) % size_t_modulus
      = EXAMPLE_BUFFER_SIZE := by
    rw [hfull, hM]
    rw [hB] at hacc ⊢
    omega
  simp only [lk_capture_audio, hreq, if_neg hnot, hsum, and_true]
  exact ⟨_, rfl⟩

/-- The buffer after `lk_capture_audio`: the bytes read are stored at the
sample offset `bytes_captured / 2`. -/
theorem lk_capture_audio_buffer (i2s_channel_read : Nat → List Nat) (m : MediaState)
    (hacc : m.bytes_captured < EXAMPLE_BUFFER_SIZE) :
    (lk_capture_audio i2s_channel_read m).2.capture_buffer =
      m.capture_buffer.take (m.bytes_captured / 2 * 2) ++
        i2s_channel_read (EXAMPLE_BUFFER_SIZE - m.bytes_captured) ++
        m.capture_buffer.drop (m.bytes_captured / 2 * 2 +
          (i2s_channel_read (EXAMPLE_BUFFER_SIZE - m.bytes_captured)).length) := by
  have hreq := bytes_to_read_eq m.bytes_captured hacc
  simp only [lk_capture_audio, hreq]
  split <;> rfl

/-- The frame that `lk_capture_audio` returns is the buffer it leaves. -/
theorem lk_capture_audio_frame (i2s_channel_read : Nat → List Nat) (m : MediaState)
    (frame : List Nat × Nat)
    (h : (lk_capture_audio i2s_channel_read m).1 = some frame) :
    frame.1 = (lk_capture_audio i2s_channel_read m).2.capture_buffer := by
  simp only [lk_capture_audio] at h ⊢
  split at h
  · exact absurd h (by simp)
  · rename_i hn
    rw [if_neg hn]
    rw [← Option.some.inj h]

/-- The counts of `lk_capture_audio`: when it returns a frame, what the
accumulator is afterwards, and what size a frame reports. -/
theorem lk_capture_audio_counts (i2s_channel_read : Nat → List Nat) (m : MediaState)
    (hacc : m.bytes_captured < EXAMPLE_BUFFER_SIZE)
    (hread : ∀ requested, (i2s_channel_read requested).length ≤ requested) :
    ((lk_capture_audio i2s_channel_read m).1.isSome = true ↔
      EXAMPLE_BUFFER_SIZE ≤ m.bytes_captured +
        (i2s_channel_read (EXAMPLE_BUFFER_SIZE - m.bytes_captured)).length) ∧
    ((lk_capture_audio i2s_channel_read m).1 = none →
      (lk_capture_audio i2s_channel_read m).2.bytes_captured = m.bytes_captured +
        (i2s_channel_read (EXAMPLE_BUFFER_SIZE - m.bytes_captured)).length ∧
      m.bytes_captured +
        (i2s_channel_read (EXAMPLE_BUFFER_SIZE - m.bytes_captured)).length
        < EXAMPLE_BUFFER_SIZE) ∧
    (∀ frame, (lk_capture_audio i2s_channel_read m).1 = some frame →
      frame.2 = EXAMPLE_BUFFER_SIZE ∧
      (lk_capture_audio i2s_channel_read m).2.bytes_captured = 0 ∧
      m.bytes_captured +
        (i2s_channel_read (EXAMPLE_BUFFER_SIZE - m.bytes_captured)).length
        = EXAMPLE_BUFFER_SIZE) ∧
    (lk_capture_audio i2s_channel_read m).2.bytes_captured < EXAMPLE_BUFFER_SIZE := by
  have hle := hread (EXAMPLE_BUFFER_SIZE - m.bytes_captured)
  have hpos : 0 < EXAMPLE_BUFFER_SIZE := by decide
  rcases Nat.lt_or_ge (i2s_channel_read (EXAMPLE_BUFFER_SIZE - m.bytes_captured)).length
      (EXAMPLE_BUFFER_SIZE - m.bytes_captured) with hshort | hge
  · obtain ⟨h1, h2⟩ := lk_capture_audio_partial i2s_channel_read m hacc hshort
    refine ⟨?_, ?_, ?_, ?_⟩
    · rw [h1]
      constructor
      · intro h; simp at h
      · intro h; omega
    · intro _
      exact ⟨h2, by omega⟩
    · intro frame hf
      rw [h1] at hf
      exact absurd hf (by simp)
    · rw [h2]; omega
  · have hfull : (i2s_channel_read (EXAMPLE_BUFFER_SIZE - m.bytes_captured)).length
        = EXAMPLE_BUFFER_SIZE - m.bytes_captured := by omega
    obtain ⟨⟨frame, h1⟩, h2⟩ := lk_capture_audio_full i2s_channel_read m hacc hfull
    refine ⟨?_, ?_, ?_, ?_⟩
    · rw [h1]
      constructor
      · intro _; omega
      · intro _; rfl
    · intro hn
      rw [h1] at hn
      exact absurd hn (by simp)
    · intro frame' hf
      rw [h1] at hf
      rw [← Option.some.inj hf]
      exact ⟨rfl, h2, by omega⟩
    · rw [h2]; exact hpos

/-- The buffer after `lk_capture_audio` at an even count, in a buffer of the
frame size: the bytes accumulated before are kept and the bytes read follow
them. -/
theorem lk_capture_audio_kept (i2s_channel_read : Nat → List Nat) (m : MediaState)
    (hacc : m.bytes_captured < EXAMPLE_BUFFER_SIZE)
    (hread : ∀ requested, (i2s_channel_read requested).length ≤ requested)
    (heven : m.bytes_captured % 2 = 0)
    (hlen : m.capture_buffer.length = EXAMPLE_BUFFER_SIZE) :
    (lk_capture_audio i2s_channel_read m).2.capture_buffer =
      m.capture_buffer.take m.bytes_captured ++
        i2s_channel_read (EXAMPLE_BUFFER_SIZE - m.bytes_captured) ++
        m.capture_buffer.drop (m.bytes_captured +
          (i2s_channel_read (EXAMPLE_BUFFER_SIZE - m.bytes_captured)).length) ∧
    (lk_capture_audio i2s_channel_read m).2.capture_buffer.length
      = EXAMPLE_BUFFER_SIZE ∧
    (lk_capture_audio i2s_channel_read m).2.capture_buffer.take m.bytes_captured
      = m.capture_buffer.take m.bytes_captured ∧
    ((lk_capture_audio i2s_channel_read m).2.capture_buffer.drop m.bytes_captured).take
        (i2s_channel_read (EXAMPLE_BUFFER_SIZE - m.bytes_captured)).length
      = i2s_channel_read (EXAMPLE_BUFFER_SIZE - m.bytes_captured) := by
  have hle := hread (EXAMPLE_BUFFER_SIZE - m.bytes_captured)
  rw [lk_capture_audio_buffer i2s_channel_read m hacc]
  have hptr : m.bytes_captured / 2 * 2 = m.bytes_captured := by omega
  rw [hptr]
  have hlt : (List.take m.bytes_captured m.capture_buffer).length = m.bytes_captured := by
    rw [List.length_take]; omega
  refine ⟨rfl, ?_, ?_, ?_⟩
  · simp only [List.length_append, List.length_take, List.length_drop]
    omega
  · rw [List.append_assoc, List.take_append_of_le_length (by omega)]
    rw [List.take_take]
    simp
  · rw [List.append_assoc, List.drop_left' hlt]
    exact List.take_left' rfl

theorem exReadThree_length_le (requested : Nat) :
    (exReadThree requested).length ≤ requested := by
  simp only [exReadThree, List.length_take]
  exact Nat.min_le_left _ _

theorem exReadTwo_length_le (requested : Nat) :
    (exReadTwo requested).length ≤ requested := by
  simp only [exReadTwo, List.length_take]
  exact Nat.min_le_left _ _

/-- C15, refuted as stated: both reads deliver at most the bytes requested.
From the state after `lk_init_audio`, a read of three bytes leaves 1, 2, 3
at the head of the buffer and the accumulator at 3. The next read, of two
bytes, returns no frame and brings the accumulator to 5, below the frame
size, but it is stored from the second sample on: the buffer then starts
1, 2, 9, 9, so the third of the partial bytes is not kept. -/
theorem capture_odd_count_counterexample :
    (∀ requested, (exReadThree requested).length ≤ requested) ∧
    (∀ requested, (exReadTwo requested).length ≤ requested) ∧
    (lk_capture_audio exReadThree exMediaStart).1 = none ∧
    (lk_capture_audio exReadThree exMediaStart).2.bytes_captured = 3 ∧
    (lk_capture_audio exReadThree exMediaStart).2.capture_buffer.take 3 = [1, 2, 3] ∧
    (lk_capture_audio exReadTwo (lk_capture_audio exReadThree exMediaStart).2).1 = none ∧
    (lk_capture_audio exReadTwo
      (lk_capture_audio exReadThree exMediaStart).2).2.bytes_captured = 5 ∧
    (lk_capture_audio exReadTwo
      (lk_capture_audio exReadThree exMediaStart).2).2.capture_buffer.take 5
      = [1, 2, 9, 9, 7] ∧
    (lk_capture_audio exReadTwo
      (lk_capture_audio exReadThree exMediaStart).2).2.capture_buffer.take 3
      ≠ (lk_capture_audio exReadThree exMediaStart).2.capture_buffer.take 3 :=
  ⟨exReadThree_length_le, exReadTwo_length_le, by decide, by decide, by decide, by decide,
    by decide, by decide, by decide⟩

/-- C15, amended: while less than a frame is accumulated and the hardware
read delivers at most the bytes requested, `lk_capture_audio` returns a
frame exactly when the bytes accumulated plus the bytes read reach the frame
size. Otherwise it returns no frame, and the accumulator grows by the bytes
read and stays below the frame size. A returned frame is the buffer, reports
the frame size, and leaves the accumulator at 0. The bytes read are stored at
the sample offset `bytes_captured / 2`. So when the accumulated count is
even, in a buffer of the frame size, the bytes accumulated before are kept
and the bytes read follow them; a returned frame is then the bytes
accumulated followed by the bytes read, a full frame; and after a read of an
even number of bytes the count is even again. -/
theorem capture_accumulates (i2s_channel_read : Nat → List Nat) (m : MediaState)
    (hacc : m.bytes_captured < EXAMPLE_BUFFER_SIZE)
    (hread : ∀ requested, (i2s_channel_read requested).length ≤ requested) :
    ((lk_capture_audio i2s_channel_read m).1.isSome = true ↔
      EXAMPLE_BUFFER_SIZE ≤ m.bytes_captured +
        (i2s_channel_read (EXAMPLE_BUFFER_SIZE - m.bytes_captured)).length) ∧
    ((lk_capture_audio i2s_channel_read m).1 = none →
      (lk_capture_audio i2s_channel_read m).2.bytes_captured = m.bytes_captured +
        (i2s_channel_read (EXAMPLE_BUFFER_SIZE - m.bytes_captured)).length ∧
      m.bytes_captured +
        (i2s_channel_read (EXAMPLE_BUFFER_SIZE - m.bytes_captured)).length
        < EXAMPLE_BUFFER_SIZE) ∧
    (∀ frame, (lk_capture_audio i2s_channel_read m).1 = some frame →
      frame.1 = (lk_capture_audio i2s_channel_read m).2.capture_buffer ∧
      frame.2 = EXAMPLE_BUFFER_SIZE ∧
      (lk_capture_audio i2s_channel_read m).2.bytes_captured = 0) ∧
    (lk_capture_audio i2s_channel_read m).2.bytes_captured < EXAMPLE_BUFFER_SIZE ∧
    (lk_capture_audio i2s_channel_read m).2.capture_buffer =
      m.capture_buffer.take (m.bytes_captured / 2 * 2) ++
        i2s_channel_read (EXAMPLE_BUFFER_SIZE - m.bytes_captured) ++
        m.capture_buffer.drop (m.bytes_captured / 2 * 2 +
          (i2s_channel_read (EXAMPLE_BUFFER_SIZE - m.bytes_captured)).length) ∧
    (m.bytes_captured % 2 = 0 → m.capture_buffer.length = EXAMPLE_BUFFER_SIZE →
      (lk_capture_audio i2s_channel_read m).2.capture_buffer.length
        = EXAMPLE_BUFFER_SIZE ∧
      (lk_capture_audio i2s_channel_read m).2.capture_buffer.take m.bytes_captured
        = m.capture_buffer.take m.bytes_captured ∧
      ((lk_capture_audio i2s_channel_read m).2.capture_buffer.drop m.bytes_captured).take
          (i2s_channel_read (EXAMPLE_BUFFER_SIZE - m.bytes_captured)).length
        = i2s_channel_read (EXAMPLE_BUFFER_SIZE - m.bytes_captured) ∧
      (∀ frame, (lk_capture_audio i2s_channel_read m).1 = some frame →
        frame.1 = m.capture_buffer.take m.bytes_captured ++
          i2s_channel_read (EXAMPLE_BUFFER_SIZE - m.bytes_captured) ∧
        frame.1.length = EXAMPLE_BUFFER_SIZE) ∧
      ((i2s_channel_read (EXAMPLE_BUFFER_SIZE - m.bytes_captured)).length % 2 = 0 →
        (lk_capture_audio i2s_channel_read m).2.bytes_captured % 2 = 0)) := by
  obtain ⟨c1, c2, c3, c4⟩ := lk_capture_audio_counts i2s_channel_read m hacc hread
  refine ⟨c1, c2, ?_, c4, lk_capture_audio_buffer i2s_channel_read m hacc, ?_⟩
  · intro frame hf
    exact ⟨lk_capture_audio_frame i2s_channel_read m frame hf, (c3 frame hf).1,
      (c3 frame hf).2.1⟩
  · intro heven hlen
    obtain ⟨k0, k1, k2, k3⟩ := lk_capture_audio_kept i2s_channel_read m hacc hread heven hlen
    refine ⟨k1, k2, k3, ?_, ?_⟩
    · intro frame hf
      have hb := lk_capture_audio_frame i2s_channel_read m frame hf
      have hsum := (c3 frame hf).2.2
      constructor
      · rw [hb, k0]
        have hd : List.drop (m.bytes_captured +
            (i2s_channel_read (EXAMPLE_BUFFER_SIZE - m.bytes_captured)).length)
            m.capture_buffer = [] := by
          apply List.drop_of_length_le
          omega
        rw [hd, List.append_nil]
      · rw [hb]; exact k1
    · intro hr
      cases hn : (lk_capture_audio i2s_channel_read m).1 with
      | none =>
        rw [(c2 hn).1]; omega
      | some frame =>
        rw [(c3 frame hn).2.1]

theorem exRead_length_le (requested : Nat) : (exRead requested).length ≤ requested := by
  simp [exRead]

theorem exMedia_length : exMedia.capture_buffer.length = EXAMPLE_BUFFER_SIZE := by
  have h : EXAMPLE_BUFFER_SIZE = 1280 := by decide
  rw [h]
  exact List.length_replicate 1280 7

theorem capture_accumulates_witness :
    (exMedia.bytes_captured < EXAMPLE_BUFFER_SIZE ∧
      (∀ requested, (exRead requested).length ≤ requested) ∧
      exMedia.bytes_captured % 2 = 0 ∧
      exMedia.capture_buffer.length = EXAMPLE_BUFFER_SIZE) ∧
    (lk_capture_audio exRead exMedia).1.isSome = true ∧
    (lk_capture_audio exRead exMedia).2.bytes_captured < EXAMPLE_BUFFER_SIZE ∧
    (lk_capture_audio exRead exMedia).2.capture_buffer.take exMedia.bytes_captured
      = exMedia.capture_buffer.take exMedia.bytes_captured ∧
    (∀ frame, (lk_capture_audio exRead exMedia).1 = some frame →
      frame.1 = exMedia.capture_buffer.take exMedia.bytes_captured ++
        exRead (EXAMPLE_BUFFER_SIZE - exMedia.bytes_captured) ∧
      frame.1.length = EXAMPLE_BUFFER_SIZE) :=
  ⟨⟨by decide, exRead_length_le, by decide, exMedia_length⟩,
   (capture_accumulates exRead exMedia (by decide) exRead_length_le).1.mpr (by decide),
   (capture_accumulates exRead exMedia (by decide) exRead_length_le).2.2.2.1,
   ((capture_accumulates exRead exMedia (by decide) exRead_length_le).2.2.2.2.2
      (by decide) exMedia_length).2.1,
   ((capture_accumulates exRead exMedia (by decide) exRead_length_le).2.2.2.2.2
      (by decide) exMedia_length).2.2.2.1⟩

/-- A pass of the publisher loop returns, whatever the engine state: the
size assertion of `encode_audio` holds for the frame it may have captured.
The session is unchanged and the accumulator stays below the frame size. -/
theorem pc_task_iteration_returns (state : PeerConnectionState)
    (i2s_channel_read : Nat → List Nat) (opus_encode : List Nat → Int)
    (pub : PubState) (m : MediaState)
    (hacc : m.bytes_captured < EXAMPLE_BUFFER_SIZE)
    (hread : ∀ requested, (i2s_channel_read requested).length ≤ requested) :
    ∃ m', (lk_pub.pc_task_iteration state i2s_channel_read opus_encode pub m).result
        = .ok (pub, m') ∧ m'.bytes_captured < EXAMPLE_BUFFER_SIZE := by
  by_cases hst : state = PEER_CONNECTION_COMPLETED
  · have hle := hread (EXAMPLE_BUFFER_SIZE - m.bytes_captured)
    have hinv := (lk_capture_audio_counts i2s_channel_read m hacc hread).2.2.2
    rcases Nat.lt_or_ge (i2s_channel_read (EXAMPLE_BUFFER_SIZE - m.bytes_captured)).length
        (EXAMPLE_BUFFER_SIZE - m.bytes_captured) with hshort | hge
    · obtain ⟨h1, _⟩ := lk_capture_audio_partial i2s_channel_read m hacc hshort
      refine ⟨(lk_capture_audio i2s_channel_read m).2, ?_, hinv⟩
      simp only [lk_pub.pc_task_iteration, hst, if_true, h1]
    · have hfull : (i2s_channel_read (EXAMPLE_BUFFER_SIZE - m.bytes_captured)).length
          = EXAMPLE_BUFFER_SIZE - m.bytes_captured := by omega
      obtain ⟨⟨frame, h1⟩, _⟩ := lk_capture_audio_full i2s_channel_read m hacc hfull
      refine ⟨(lk_capture_audio i2s_channel_read m).2, ?_, hinv⟩
      have hsize : EXAMPLE_BUFFER_SIZE = lk_pub.OPUS_ENCODE_BUFFER_SIZE := by decide
      simp only [lk_pub.pc_task_iteration, hst, if_true, h1, lk_pub.encode_audio, hsize]
  · exact ⟨m, by simp only [lk_pub.pc_task_iteration, hst, if_false], hacc⟩

/-- C16: the capture frame size and the encoder frame size are both 1280
bytes. From a state with less than a frame accumulated (the accumulator
starts at 0) and with hardware reads that deliver at most the bytes
requested: every frame `lk_capture_audio` returns reports 1280 bytes; a pass
of the publisher loop never fails the size assertion of `encode_audio`, it
returns; and so does every sequence of passes, in whatever engine states. -/
theorem frame_size_agreement (opus_encode : List Nat → Int)
    (passes : List (PeerConnectionState × (Nat → List Nat)))
    (pub : PubState) (m : MediaState)
    (hacc : m.bytes_captured < EXAMPLE_BUFFER_SIZE)
    (hread : ∀ pass, pass ∈ passes → ∀ requested, (pass.2 requested).length ≤ requested) :
    EXAMPLE_BUFFER_SIZE = 16000 * 2 * 2 * 20 / 1000 ∧ EXAMPLE_BUFFER_SIZE = 1280 ∧
    lk_pub.OPUS_ENCODE_BUFFER_SIZE = (16000 / 1000 * 20) * 2 * 2 ∧
    lk_pub.OPUS_ENCODE_BUFFER_SIZE = 1280 ∧
    (∀ i2s_channel_read : Nat → List Nat,
      (∀ requested, (i2s_channel_read requested).length ≤ requested) →
      (∀ frame, (lk_capture_audio i2s_channel_read m).1 = some frame → frame.2 = 1280) ∧
      (∀ state, ∃ m',
        (lk_pub.pc_task_iteration state i2s_channel_read opus_encode pub m).result
          = .ok (pub, m') ∧ m'.bytes_captured < EXAMPLE_BUFFER_SIZE)) ∧
    (∃ m', (runOps (fun (pass : PeerConnectionState × (Nat → List Nat)) s =>
          lk_pub.pc_task_iteration pass.1 pass.2 opus_encode s.1 s.2) passes (pub, m)).result
        = .ok (pub, m') ∧ m'.bytes_captured < EXAMPLE_BUFFER_SIZE) := by
  refine ⟨by decide, by decide, by decide, by decide, ?_, ?_⟩
  · intro i2s_channel_read hr
    constructor
    · intro frame hf
      have h := ((lk_capture_audio_counts i2s_channel_read m hacc hr).2.2.1 frame hf).1
      rw [h]; decide
    · intro state
      exact pc_task_iteration_returns state i2s_channel_read opus_encode pub m hacc hr
  · induction passes generalizing m with
    | nil => exact ⟨m, rfl, hacc⟩
    | cons pass rest ih =>
      obtain ⟨m1, h1, hacc1⟩ := pc_task_iteration_returns pass.1 pass.2 opus_encode pub m
        hacc (hread pass (List.mem_cons_self pass rest))
      obtain ⟨m2, h2, hacc2⟩ := ih m1 hacc1
        (fun p hp => hread p (List.mem_cons_of_mem pass hp))
      refine ⟨m2, ?_, hacc2⟩
      simp only [runOps, h1]
      exact h2

theorem frame_size_agreement_witness :
    (exMedia.bytes_captured < EXAMPLE_BUFFER_SIZE) ∧
    ∃ m', (runOps (fun (pass : PeerConnectionState × (Nat → List Nat)) s =>
          lk_pub.pc_task_iteration pass.1 pass.2 (fun _ => 40) s.1 s.2)
        [(PEER_CONNECTION_COMPLETED, exRead), (PEER_CONNECTION_CHECKING, exRead),
          (PEER_CONNECTION_COMPLETED, exRead)]
        ((⟨some exLocal, none, none⟩ : PubState), exMedia)).result
        = .ok (⟨some exLocal, none, none⟩, m') ∧ m'.bytes_captured < EXAMPLE_BUFFER_SIZE :=
  ⟨by decide,
   (frame_size_agreement (fun _ => 40)
      [(PEER_CONNECTION_COMPLETED, exRead), (PEER_CONNECTION_CHECKING, exRead),
        (PEER_CONNECTION_COMPLETED, exRead)]
      ⟨some exLocal, none, none⟩ exMedia (by decide)
      (fun pass _ requested => by
        have h : ∀ p : PeerConnectionState × (Nat → List Nat),
            p ∈ [(PEER_CONNECTION_COMPLETED, exRead), (PEER_CONNECTION_CHECKING, exRead),
              (PEER_CONNECTION_COMPLETED, exRead)] → p.2 = exRead := by
          intro p hp
          simp only [List.mem_cons, List.mem_singleton, List.not_mem_nil, or_false] at hp
          rcases hp with hp | hp | hp <;> rw [hp]
        rw [h pass (by assumption)]
        exact exRead_length_le requested)).2.2.2.2.2⟩

/-! ## The stuck candidate: the claim -/

/-- A sequence of operations that returns, followed by more operations. -/
theorem runOps_append {σ ο : Type} (operation : ο → σ → Step σ) (pre rest : List ο)
    (s s1 : σ) (h : (runOps operation pre s).result = .ok s1) :
    runOps operation (pre ++ rest) s =
      ⟨(runOps operation pre s).events ++ (runOps operation rest s1).events,
        (runOps operation rest s1).result⟩ := by
  induction pre generalizing s with
  | nil =>
    simp only [runOps] at h
    have hs : s = s1 := by injection h
    subst hs
    simp [runOps]
  | cons op pre ih =>
    cases hr : (operation op s).result with
    | error f => simp [runOps, hr] at h
    | ok s' =>
      simp only [runOps, hr] at h
      show runOps operation (op :: (pre ++ rest)) s = _
      simp only [runOps, hr, ih s' h, List.append_assoc]

/-- A property of the state that every returning operation keeps, and under
which no operation produces an event of a given kind, holds along a whole
sequence of operations. -/
theorem runOps_invariant {σ ο : Type} (operation : ο → σ → Step σ) (inv : σ → Prop)
    (bad : Event → Bool)
    (hstep : ∀ op s, inv s →
      (∀ e, e ∈ (operation op s).events → bad e = false) ∧
      (∀ s', (operation op s).result = .ok s' → inv s'))
    (ops : List ο) (s : σ) (hs : inv s) :
    (∀ e, e ∈ (runOps operation ops s).events → bad e = false) ∧
    (∀ s', (runOps operation ops s).result = .ok s' → inv s') := by
  induction ops generalizing s with
  | nil =>
    constructor
    · intro e he; simp [runOps] at he
    · intro s' h
      simp only [runOps] at h
      have : s = s' := by injection h
      rw [← this]; exact hs
  | cons op rest ih =>
    obtain ⟨hev, hinv⟩ := hstep op s hs
    cases hr : (operation op s).result with
    | error f =>
      constructor
      · intro e he
        simp only [runOps, hr] at he
        exact hev e he
      · intro s' h
        simp [runOps, hr] at h
    | ok s1 =>
      obtain ⟨hev1, hinv1⟩ := ih s1 (hinv s1 hr)
      constructor
      · intro e he
        simp only [runOps, hr, List.mem_append] at he
        rcases he with he | he
        · exact hev e he
        · exact hev1 e he
      · intro s' h
        simp only [runOps, hr] at h
        exact hinv1 s' h

/-- One operation on a subscriber that holds a candidate, the engine being
Connected: the engine gets no candidate and the candidate stays. -/
theorem lk_sub_operation_connected (candidate : Str) (op : SubOp) (s : SubState)
    (hs : s.g_ice_candidate_buffer = some candidate) :
    (∀ e, e ∈ (lk_sub.operation PEER_CONNECTION_COMPLETED op s).events →
      e.isAddIceCandidate = false) ∧
    (∀ s', (lk_sub.operation PEER_CONNECTION_COMPLETED op s).result = .ok s' →
      s'.g_ice_candidate_buffer = some candidate) := by
  cases op with
  | lk_sub_set_remote_description offer =>
    cases hl : s.g_local_description with
    | none =>
      simp [lk_sub.operation, lk_sub_set_remote_description,
        lk_sub.process_signaling_values, lk_sub.apply_offer, hl, Event.isAddIceCandidate]
    | some local_description =>
      cases ha : create_answer offer local_description <;>
        simp [lk_sub.operation, lk_sub_set_remote_description,
          lk_sub.process_signaling_values, lk_sub.apply_offer, hl, ha, hs,
          Event.isAddIceCandidate]
  | lk_sub_add_ice_candidate description =>
    simp [lk_sub.operation, lk_sub_add_ice_candidate, hs]
  | pc_task_iteration =>
    simp [lk_sub.operation, lk_sub.pc_task_iteration, hs, Event.isAddIceCandidate]
  | on_ice_candidate description =>
    simp [lk_sub.operation, lk_sub.on_ice_candidate, hs]
  | on_ice_state_change reported =>
    simp [lk_sub.operation, lk_sub.on_ice_state_change, hs, Event.isAddIceCandidate]

/-- A pass of the publisher loop applies no candidate to the engine and
leaves the session as it was. -/
theorem lk_pub_pc_task_iteration_session (state : PeerConnectionState)
    (i2s_channel_read : Nat → List Nat) (opus_encode : List Nat → Int)
    (pub : PubState) (m : MediaState) :
    (∀ e, e ∈ (lk_pub.pc_task_iteration state i2s_channel_read opus_encode pub m).events →
      e.isAddIceCandidate = false) ∧
    (∀ p', (lk_pub.pc_task_iteration state i2s_channel_read opus_encode pub m).result
      = .ok p' → p'.1 = pub) := by
  simp only [lk_pub.pc_task_iteration]
  split
  · rename_i data bytes hc
    by_cases hb : bytes = lk_pub.OPUS_ENCODE_BUFFER_SIZE
    · simp [lk_pub.encode_audio, hb, Event.isAddIceCandidate]
    · simp [lk_pub.encode_audio, hb]
  · simp [Event.isAddIceCandidate]

/-- One operation on a publisher that holds a candidate, the engine being
Connected: the engine gets no candidate and the candidate stays. -/
theorem lk_pub_operation_connected (opus_encode : List Nat → Int) (candidate : Str)
    (op : PubOp) (p : PubState × MediaState)
    (hp : p.1.g_ice_candidate_buffer = some candidate) :
    (∀ e, e ∈ (lk_pub.operation opus_encode PEER_CONNECTION_COMPLETED op p).events →
      e.isAddIceCandidate = false) ∧
    (∀ p', (lk_pub.operation opus_encode PEER_CONNECTION_COMPLETED op p).result = .ok p' →
      p'.1.g_ice_candidate_buffer = some candidate) := by
  obtain ⟨s, m⟩ := p
  simp only at hp
  cases op with
  | lk_pub_set_remote_description sdp =>
    simp [lk_pub.operation, withMedia, lk_pub_set_remote_description,
      lk_pub.process_signaling_values, lk_pub.apply_answer, hp, Event.isAddIceCandidate]
  | lk_pub_add_ice_candidate description =>
    simp [lk_pub.operation, withMedia, lk_pub_add_ice_candidate, hp]
  | lk_pub_reoffer =>
    simp [lk_pub.operation, withMedia, lk_pub_reoffer, hp, Event.isAddIceCandidate]
  | pc_task_iteration i2s_channel_read =>
    obtain ⟨h1, h2⟩ := lk_pub_pc_task_iteration_session PEER_CONNECTION_COMPLETED
      i2s_channel_read opus_encode s m
    refine ⟨h1, ?_⟩
    intro p' h
    have := h2 p' h
    rw [this]; exact hp
  | on_ice_candidate description =>
    simp [lk_pub.operation, withMedia, lk_pub.on_ice_candidate, hp, Event.isAddIceCandidate]
  | on_ice_state_change reported =>
    simp [lk_pub.operation, withMedia, lk_pub.on_ice_state_change, hp,
      Event.isAddIceCandidate]

/-- C17: take a subscriber and a publisher that each hold a pending
candidate, and any sequences of operations on them (remote descriptions,
renegotiation requests, passes of the task loop, callbacks of the engine,
further candidates), all with the engine reporting Connected. Along the
sequence the engine never gets a candidate, and whenever the sequence
returns, the candidate is still in its slot. So a candidate submitted after
a sequence that returned ends in the failed assertion, with no event of its
own. A candidate is left in the slot by the very call that accepts it while
Connected, whether or not that call applies a pending description. -/
theorem stuck_candidate_after_connect (opus_encode : List Nat → Int)
    (sub : SubState) (pub : PubState) (m : MediaState) (candidate : Str)
    (subOps : List SubOp) (pubOps : List PubOp)
    (hsub : sub.g_ice_candidate_buffer = some candidate)
    (hpub : pub.g_ice_candidate_buffer = some candidate) :
    (∀ e, e ∈ (runOps (lk_sub.operation PEER_CONNECTION_COMPLETED) subOps sub).events →
      e.isAddIceCandidate = false) ∧
    (∀ sub', (runOps (lk_sub.operation PEER_CONNECTION_COMPLETED) subOps sub).result
        = .ok sub' → sub'.g_ice_candidate_buffer = some candidate) ∧
    (∀ sub' later rest,
      (runOps (lk_sub.operation PEER_CONNECTION_COMPLETED) subOps sub).result = .ok sub' →
      runOps (lk_sub.operation PEER_CONNECTION_COMPLETED)
          (subOps ++ SubOp.lk_sub_add_ice_candidate later :: rest) sub
        = ⟨(runOps (lk_sub.operation PEER_CONNECTION_COMPLETED) subOps sub).events,
            .error Fatal.assert_failed⟩) ∧
    (∀ e, e ∈ (runOps (lk_pub.operation opus_encode PEER_CONNECTION_COMPLETED) pubOps
        (pub, m)).events → e.isAddIceCandidate = false) ∧
    (∀ p', (runOps (lk_pub.operation opus_encode PEER_CONNECTION_COMPLETED) pubOps
        (pub, m)).result = .ok p' → p'.1.g_ice_candidate_buffer = some candidate) ∧
    (∀ p' later rest,
      (runOps (lk_pub.operation opus_encode PEER_CONNECTION_COMPLETED) pubOps
        (pub, m)).result = .ok p' →
      runOps (lk_pub.operation opus_encode PEER_CONNECTION_COMPLETED)
          (pubOps ++ PubOp.lk_pub_add_ice_candidate later :: rest) (pub, m)
        = ⟨(runOps (lk_pub.operation opus_encode PEER_CONNECTION_COMPLETED) pubOps
              (pub, m)).events,
            .error Fatal.assert_failed⟩) ∧
    (∀ sub0 sub1,
      (lk_sub_add_ice_candidate PEER_CONNECTION_COMPLETED sub0 candidate).result = .ok sub1 →
      sub1.g_ice_candidate_buffer = some candidate ∧
      ∀ e, e ∈ (lk_sub_add_ice_candidate PEER_CONNECTION_COMPLETED sub0 candidate).events →
        e.isAddIceCandidate = false) ∧
    (∀ pub0 pub1,
      (lk_pub_add_ice_candidate PEER_CONNECTION_COMPLETED pub0 candidate).result = .ok pub1 →
      pub1.g_ice_candidate_buffer = some candidate ∧
      ∀ e, e ∈ (lk_pub_add_ice_candidate PEER_CONNECTION_COMPLETED pub0 candidate).events →
        e.isAddIceCandidate = false) := by
  obtain ⟨hs1, hs2⟩ := runOps_invariant (lk_sub.operation PEER_CONNECTION_COMPLETED)
    (fun s => s.g_ice_candidate_buffer = some candidate) Event.isAddIceCandidate
    (fun op s hs => lk_sub_operation_connected candidate op s hs) subOps sub hsub
  obtain ⟨hp1, hp2⟩ := runOps_invariant
    (lk_pub.operation opus_encode PEER_CONNECTION_COMPLETED)
    (fun p => p.1.g_ice_candidate_buffer = some candidate) Event.isAddIceCandidate
    (fun op p hp => lk_pub_operation_connected opus_encode candidate op p hp)
    pubOps (pub, m) hpub
  refine ⟨hs1, hs2, ?_, hp1, hp2, ?_, ?_, ?_⟩
  · intro sub' later rest h
    have hc := hs2 sub' h
    rw [runOps_append _ subOps _ sub sub' h]
    simp [runOps, lk_sub.operation, lk_sub_add_ice_candidate, hc]
  · intro p' later rest h
    have hc := hp2 p' h
    rw [runOps_append _ pubOps _ (pub, m) p' h]
    obtain ⟨s', m'⟩ := p'
    simp only at hc
    simp [runOps, lk_pub.operation, withMedia, lk_pub_add_ice_candidate, hc]
  · intro sub0 sub1 h
    cases hc : sub0.g_ice_candidate_buffer with
    | some pending => simp [lk_sub_add_ice_candidate, hc] at h
    | none =>
      cases ho : sub0.g_offer_buffer with
      | none =>
        simp only [lk_sub_add_ice_candidate, hc, lk_sub.process_signaling_values, ho] at h ⊢
        rw [← Except.ok.inj h]
        simp
      | some offer =>
        cases hl : sub0.g_local_description with
        | none =>
          simp [lk_sub_add_ice_candidate, hc, lk_sub.process_signaling_values, ho,
            lk_sub.apply_offer, hl] at h
        | some local_description =>
          cases ha : create_answer offer local_description with
          | none =>
            simp [lk_sub_add_ice_candidate, hc, lk_sub.process_signaling_values, ho,
              lk_sub.apply_offer, hl, ha] at h
          | some answer =>
            simp only [lk_sub_add_ice_candidate, hc, lk_sub.process_signaling_values, ho,
              lk_sub.apply_offer, hl, ha] at h ⊢
            simp at h
            rw [← h]
            simp [Event.isAddIceCandidate]
  · intro pub0 pub1 h
    cases hc : pub0.g_ice_candidate_buffer with
    | some pending => simp [lk_pub_add_ice_candidate, hc] at h
    | none =>
      cases ho : pub0.g_answer_buffer with
      | none =>
        simp only [lk_pub_add_ice_candidate, hc, lk_pub.process_signaling_values, ho] at h ⊢
        rw [← Except.ok.inj h]
        simp
      | some answer =>
        simp only [lk_pub_add_ice_candidate, hc, lk_pub.process_signaling_values, ho,
          lk_pub.apply_answer] at h ⊢
        simp at h
        rw [← h]
        simp [Event.isAddIceCandidate]

theorem exSubOps_returns :
    (runOps (lk_sub.operation PEER_CONNECTION_COMPLETED) exSubOps exSubHolding).result
      = .ok exSubHolding := by
  have h1 : create_answer exOfferData exLocal = some (exHeader ++ exData) := by decide
  have h2 : create_answer exOfferDataAudio exLocal = some (exHeader ++ exData ++ exAudio) := by
    decide
  simp [runOps, exSubOps, exSubHolding, lk_sub.operation, lk_sub_set_remote_description,
    lk_sub.process_signaling_values, lk_sub.apply_offer, lk_sub.pc_task_iteration, h1, h2]

theorem exPubOps_returns :
    ∃ m', (runOps (lk_pub.operation (fun _ => 40) PEER_CONNECTION_COMPLETED) exPubOps
      (exPubHolding, exMedia)).result = .ok (exPubHolding, m') := by
  obtain ⟨m', h, _⟩ := pc_task_iteration_returns PEER_CONNECTION_COMPLETED exRead
    (fun _ => 40) exPubHolding exMedia (by decide) exRead_length_le
  refine ⟨m', ?_⟩
  simp only [runOps, exPubOps, lk_pub.operation, withMedia, lk_pub_set_remote_description,
    lk_pub.process_signaling_values, lk_pub.apply_answer, lk_pub_reoffer, exPubHolding] at h ⊢
  simp [h]

theorem stuck_candidate_after_connect_witness :
    runOps (lk_sub.operation PEER_CONNECTION_COMPLETED)
        (exSubOps ++ SubOp.lk_sub_add_ice_candidate exCandidateB :: []) exSubHolding
      = ⟨(runOps (lk_sub.operation PEER_CONNECTION_COMPLETED) exSubOps exSubHolding).events,
          .error Fatal.assert_failed⟩ ∧
    runOps (lk_pub.operation (fun _ => 40) PEER_CONNECTION_COMPLETED)
        (exPubOps ++ PubOp.lk_pub_add_ice_candidate exCandidateB :: []) (exPubHolding, exMedia)
      = ⟨(runOps (lk_pub.operation (fun _ => 40) PEER_CONNECTION_COMPLETED) exPubOps
            (exPubHolding, exMedia)).events,
          .error Fatal.assert_failed⟩ ∧
    ∀ e, e ∈ (runOps (lk_pub.operation (fun _ => 40) PEER_CONNECTION_COMPLETED) exPubOps
        (exPubHolding, exMedia)).events → e.isAddIceCandidate = false := by
  obtain ⟨m', hpub⟩ := exPubOps_returns
  exact
    ⟨(stuck_candidate_after_connect (fun _ => 40) exSubHolding exPubHolding exMedia
        exCandidateA exSubOps exPubOps rfl rfl).2.2.1 exSubHolding exCandidateB []
        exSubOps_returns,
     (stuck_candidate_after_connect (fun _ => 40) exSubHolding exPubHolding exMedia
        exCandidateA exSubOps exPubOps rfl rfl).2.2.2.2.2.1 (exPubHolding, m') exCandidateB []
        hpub,
     (stuck_candidate_after_connect (fun _ => 40) exSubHolding exPubHolding exMedia
        exCandidateA exSubOps exPubOps rfl rfl).2.2.2.1⟩

end EmbeddedSdk
